import Mathlib

/-
  Verification development for the CRM CSV bulk-import pipeline.

  The definitions below are a shallow embedding of the TypeScript handlers:
  `startImport` (ingestion orchestrator), `previewImport` (read-only preview),
  `getImportStatus`, `getImportLog` and the log-export line renderer of
  `downloadImportLog`.  JavaScript strings are modelled as Lean `String`s and
  the relevant `String.prototype` operations (`split`, `trim`, `toLowerCase`,
  the quote-stripping regex replacements) are re-implemented structurally so
  that everything evaluates inside the kernel.
-/

namespace CrmImport

/-! ### JavaScript string primitives -/

/-- `s.split(sep)` for a one-character separator, on the character list.
JavaScript semantics: `"".split(c) = [""]`, separators at the edges produce
empty fragments. -/
def splitOnChar (c : Char) : List Char → List (List Char)
  | [] => [[]]
  | x :: xs =>
    let r := splitOnChar c xs
    if x = c then [] :: r
    else
      match r with
      | [] => [[x]]
      | y :: ys => (x :: y) :: ys

/-- `s.split(c)` on strings. -/
def jsSplit (c : Char) (s : String) : List String :=
  (splitOnChar c s.data).map (fun l => String.mk l)

/-- Whitespace trimming on a character list (both ends). -/
def trimChars (l : List Char) : List Char :=
  ((l.dropWhile Char.isWhitespace).reverse.dropWhile Char.isWhitespace).reverse

/-- `s.trim()`. -/
def jsTrim (s : String) : String := String.mk (trimChars s.data)

/-- `s.toLowerCase()` (ASCII, which is all this code base feeds it). -/
def jsToLower (s : String) : String := String.mk (s.data.map Char.toLower)

/-- Drop a single leading quote character, if present. -/
def dropLeadingQuote : List Char → List Char
  | '"' :: t => t
  | l => l

/-- `v.replace(/^"|"$/g, '')`: strip at most one leading and one trailing
quote. -/
def stripOuterQuotes (s : String) : String :=
  String.mk ((dropLeadingQuote (dropLeadingQuote s.data).reverse).reverse)

/-- `v.replace(/"/g, '')`: remove every quote character. -/
def removeQuotes (s : String) : String :=
  String.mk (s.data.filter (fun c => c ≠ '"'))

/-- `Array.prototype.join(sep)`. -/
def joinWith (sep : String) : List String → String
  | [] => ""
  | [x] => x
  | x :: xs => x ++ sep ++ joinWith sep xs

/-! ### JavaScript values: `undefined` / `null` / string

The ingestion handler distinguishes `undefined` (column absent from the row
record) from `null` (empty optional field) — both are falsy, but `===` against
a stored `null` differs. -/

inductive JsStr where
  | undef
  | nullv
  | str (s : String)
deriving DecidableEq

/-- JavaScript truthiness of the value. -/
def JsStr.truthy : JsStr → Bool
  | .str s => !s.data.isEmpty
  | _ => false

/-- How the value prints inside a template literal. -/
def JsStr.render : JsStr → String
  | .undef => "undefined"
  | .nullv => "null"
  | .str s => s

/-- The value as stored in a nullable database column. -/
def JsStr.toDb : JsStr → Option String
  | .str s => some s
  | _ => none

/-- JavaScript `dbv === v` where `dbv` is a nullable column value. -/
def jsEqDb (dbv : Option String) : JsStr → Bool
  | .str s => dbv == some s
  | .nullv => dbv == none
  | .undef => false

/-! ### Records (JavaScript objects with string keys) -/

/-- `obj[k] = v` on an insertion-ordered string record: overwrite in place or
append at the end. -/
def jsUpdate (k v : String) : List (String × String) → List (String × String)
  | [] => [(k, v)]
  | (k', v') :: t => if k' = k then (k, v) :: t else (k', v') :: jsUpdate k v t

/-- `obj[k]` (`none` models `undefined`). -/
def lookupStr (r : List (String × String)) (k : String) : Option String :=
  (r.find? (fun kv => kv.1 == k)).map (fun kv => kv.2)

/-- `obj[k] || ''`. -/
def lookupD (r : List (String × String)) (k : String) : String :=
  (lookupStr r k).getD ""

/-! ### JSON serialization (`JSON.stringify` on flat string records) -/

/-- Escape a string for a JSON literal (the only escapes this data can need). -/
def jsonEscape (s : String) : String :=
  String.mk (s.data.foldr
    (fun c acc =>
      if c = '"' then '\\' :: '"' :: acc
      else if c = '\\' then '\\' :: '\\' :: acc
      else c :: acc) [])

/-- A JSON string literal. -/
def jsonStr (s : String) : String := "\"" ++ jsonEscape s ++ "\""

/-- `JSON.stringify` of a flat string-keyed, string-valued object. -/
def jsonRecord (fields : List (String × String)) : String :=
  "\x7b" ++ joinWith "," (fields.map (fun kv => jsonStr kv.1 ++ ":" ++ jsonStr kv.2)) ++ "\x7d"

/-- `JSON.stringify` of an array of strings. -/
def jsonArray (l : List String) : String :=
  "[" ++ joinWith "," (l.map jsonStr) ++ "]"

/-- The opening brace character. -/
def lbrace : Char := Char.ofNat 123

/-- The closing brace character. -/
def rbrace : Char := Char.ofNat 125

/-- Parse a JSON string body after its opening quote; returns the decoded
content and the remaining characters after the closing quote. -/
def parseJsonStrAux : List Char → Option (List Char × List Char)
  | [] => none
  | '"' :: rest => some ([], rest)
  | '\\' :: c :: rest =>
    if c = '"' ∨ c = '\\' then
      (parseJsonStrAux rest).map (fun p => (c :: p.1, p.2))
    else none
  | c :: rest => (parseJsonStrAux rest).map (fun p => (c :: p.1, p.2))

/-- Parse the key/value pairs of a flat JSON object (fuelled). -/
def parseJsonPairsAux : Nat → List Char → Option (List (String × String) × List Char)
  | 0, _ => none
  | fuel + 1, l =>
    match l with
    | '"' :: rest =>
      match parseJsonStrAux rest with
      | some (k, r1) =>
        match r1 with
        | ':' :: '"' :: r2 =>
          match parseJsonStrAux r2 with
          | some (v, r3) =>
            match r3 with
            | ',' :: r4 =>
              (parseJsonPairsAux fuel r4).map
                (fun p => ((String.mk k, String.mk v) :: p.1, p.2))
            | c :: r4 =>
              if c = rbrace then some ([(String.mk k, String.mk v)], r4) else none
            | [] => none
          | none => none
        | _ => none
      | none => none
    | _ => none

/-- Modelled `JSON.parse` restricted to the flat string records this
application stores in `raw_data` (`none` models a parse exception). -/
def parseJsonRecord (s : String) : Option (List (String × String)) :=
  match s.data with
  | c :: rest =>
    if c = lbrace then
      match rest with
      | c2 :: r2 =>
        if c2 = rbrace ∧ r2 = [] then some []
        else
          match parseJsonPairsAux (rest.length + 1) rest with
          | some (ps, []) => some ps
          | _ => none
      | [] => none
    else none
  | [] => none

/-! ### Data model (`db/schema.ts` / `schema.ts`) -/

/-- A persisted contact record (identity fields only; timestamps and the
serial id are irrelevant to every claim and omitted). -/
structure Contact where
  nombre : String
  apellido : String
  email : Option String
  telefono : Option String
deriving DecidableEq

/-- Outcome status of a log entry. -/
inductive LogStatus where
  | success
  | error
deriving DecidableEq

/-- One `import_log_entries` row. -/
structure LogEntry where
  import_batch_id : Nat
  row_number : Nat
  status : LogStatus
  error_message : Option String
  raw_data : String
deriving DecidableEq

/-- Lifecycle status of an import batch. -/
inductive BatchStatus where
  | pending
  | processing
  | completed
  | failed
deriving DecidableEq

/-- One `import_batches` row (time modelled as an abstract `Nat` tick). -/
structure ImportBatch where
  id : Nat
  filename : String
  total_records : Nat
  successful_records : Nat
  failed_records : Nat
  status : BatchStatus
  error_log : Option String
  completed_at : Option Nat
deriving DecidableEq

/-! ### Row validation (`csvRowSchema` of `schema.ts`) -/

/-- The shape handed to `csvRowSchema.safeParse`: required names plus
tri-state optional fields. -/
structure CsvRowData where
  nombre : String
  apellido : String
  email : JsStr
  telefono : JsStr
deriving DecidableEq

/-- Modelled from the spec: zod's `z.string().email()` format check (library
code, not part of this repository) — "email, if present, must match a
standard address format".  One `@` separating a non-empty local part from a
dotted domain of non-empty labels. -/
def emailFormatValid (s : String) : Bool :=
  match splitOnChar '@' s.data with
  | [localPart, domain] =>
    !localPart.isEmpty && !domain.isEmpty &&
      decide ((splitOnChar '.' domain).length ≥ 2) &&
      (splitOnChar '.' domain).all (fun lab => !lab.isEmpty)
  | _ => false

/-- The zod issues produced by `csvRowSchema.safeParse`, in schema key order,
as `(path, message)` pairs. -/
def rowValidationErrors (d : CsvRowData) : List (String × String) :=
  (if d.nombre.data.isEmpty then [("nombre", "Nombre es obligatorio")] else []) ++
  (if d.apellido.data.isEmpty then [("apellido", "Apellido es obligatorio")] else []) ++
  (match d.email with
   | .str s => if emailFormatValid s then [] else [("email", "Email inválido")]
   | _ => [])

/-! ### Ingestion orchestrator (`start_import.ts`) -/

/-- The columns the ingestion handler recognises. -/
def validColumns : List String := ["nombre", "apellido", "email", "telefono"]

/-- The mandatory columns. -/
def requiredColumns : List String := ["nombre", "apellido"]

/-- The chunk size used by the ingestion loop. -/
def CHUNK_SIZE : Nat := 1000

/-- `header.forEach((col, index) => if (validColumns.includes(col) && index <
values.length) rowData[col] = values[index] || '')`. -/
def buildRowDataAux (values : List String) : Nat → List String → List (String × String) → List (String × String)
  | _, [], acc => acc
  | idx, col :: hs, acc =>
    buildRowDataAux values (idx + 1) hs
      (if validColumns.contains col ∧ idx < values.length then
        jsUpdate col (values.getD idx "") acc
      else acc)

/-- Parse one CSV data row of the ingestion path: split on commas, trim, strip
one pair of outer quotes, and key the values by the lower-cased header. -/
def parseStartRow (header : List String) (row : String) : List (String × String) :=
  buildRowDataAux ((jsSplit ',' row).map (fun v => stripOuterQuotes (jsTrim v))) 0 header []

/-- The `processedData` object: required fields default to `''`, optional
fields map `''` to `null` and an absent column to `undefined`. -/
def toProcessedData (rowData : List (String × String)) : CsvRowData :=
  { nombre := lookupD rowData "nombre"
    apellido := lookupD rowData "apellido"
    email :=
      match lookupStr rowData "email" with
      | none => .undef
      | some v => if v = "" then .nullv else .str v
    telefono :=
      match lookupStr rowData "telefono" with
      | none => .undef
      | some v => if v = "" then .nullv else .str v }

/-- Whether a stored contact matches the row's duplicate-check conditions
(`or(eq(email, …), eq(telefono, …))`, each condition present only when the
row's value is truthy). -/
def contactMatches (d : CsvRowData) (c : Contact) : Bool :=
  (d.email.truthy && c.email == d.email.toDb) ||
  (d.telefono.truthy && c.telefono == d.telefono.toDb)

/-- The mutable state of one ingestion run: the contacts table, the log
entries written so far, both counters, and the batch-level error list. -/
structure RunState where
  contacts : List Contact
  logs : List LogEntry
  succ : Nat
  failed : Nat
  errorLog : List String
deriving DecidableEq

/-- The `existingContacts` a row's duplicate check selects: the matching
contacts when at least one condition is present, nothing otherwise (no query
is issued without conditions). -/
def existingFor (d : CsvRowData) (contacts : List Contact) : List Contact :=
  if d.email.truthy || d.telefono.truthy then contacts.filter (contactMatches d) else []

/-- The `processedData` of one raw data row of the ingestion path. -/
def processedOf (header : List String) (row : String) : CsvRowData :=
  toProcessedData (parseStartRow header row)

/-- The `duplicateField` the handler reports: `email` when some matching
contact's email strictly equals the row's, `telefono` otherwise. -/
def dupFieldOf (d : CsvRowData) (contacts : List Contact) : String :=
  if (existingFor d contacts).any (fun c => jsEqDb c.email d.email) then "email" else "telefono"

/-- The offending value printed next to `duplicateField`. -/
def dupValueOf (d : CsvRowData) (contacts : List Contact) : String :=
  if dupFieldOf d contacts = "email" then d.email.render else d.telefono.render

/-- Process one data row inside the chunk transaction.  `fault rowIndex`
injects the unexpected exception (message) the `catch` block of the source
handles; `none` is the nominal path. -/
def processRow (batchId : Nat) (header : List String) (fault : Nat → Option String)
    (st : RunState) (rowIndex : Nat) (row : String) : RunState :=
  match fault rowIndex with
  | some msg =>
    { st with
      failed := st.failed + 1
      errorLog := st.errorLog ++ ["Row " ++ toString rowIndex ++ ": " ++ msg]
      logs := st.logs ++ [⟨batchId, rowIndex, .error, some msg, "\x7b\x7d"⟩] }
  | none =>
    if (rowValidationErrors (processedOf header row)).isEmpty then
      if (existingFor (processedOf header row) st.contacts).isEmpty then
        { st with
          contacts := st.contacts ++
            [⟨(processedOf header row).nombre, (processedOf header row).apellido,
              (processedOf header row).email.toDb, (processedOf header row).telefono.toDb⟩]
          succ := st.succ + 1
          logs := st.logs ++
            [⟨batchId, rowIndex, .success, none, jsonRecord (parseStartRow header row)⟩] }
      else
        { st with
          failed := st.failed + 1
          logs := st.logs ++
            [⟨batchId, rowIndex, .error,
              some ("Duplicate " ++ dupFieldOf (processedOf header row) st.contacts ++ ": " ++
                dupValueOf (processedOf header row) st.contacts),
              jsonRecord (parseStartRow header row)⟩] }
    else
      { st with
        failed := st.failed + 1
        logs := st.logs ++
          [⟨batchId, rowIndex, .error,
            some ("Validation failed: " ++ joinWith ", "
              ((rowValidationErrors (processedOf header row)).map (fun e => e.2))),
            jsonRecord (parseStartRow header row)⟩] }

/-- Process a list of rows in order; `idx` is the 1-based row number of the
first row of the list. -/
def runRows (batchId : Nat) (header : List String) (fault : Nat → Option String) :
    RunState → Nat → List String → RunState
  | st, _, [] => st
  | st, idx, row :: rest =>
    runRows batchId header fault (processRow batchId header fault st idx row) (idx + 1) rest

/-- Fuelled chunking (`for (i = 0; i < n; i += CHUNK_SIZE) chunks.push(slice)`). -/
def chunksOfAux (n : Nat) : Nat → List α → List (List α)
  | 0, _ => []
  | _, [] => []
  | fuel + 1, l => l.take n :: chunksOfAux n fuel (l.drop n)

/-- Partition a list into chunks of `n` (final chunk may be smaller). -/
def chunksOf (n : Nat) (l : List α) : List (List α) :=
  chunksOfAux n (l.length + 1) l

/-- Process the chunks in order; `ci` is the chunk index, so the first row of
chunk `ci` is row `ci * chunkSize + 1`. -/
def runChunks (batchId : Nat) (header : List String) (fault : Nat → Option String)
    (chunkSize : Nat) : RunState → Nat → List (List String) → RunState
  | st, _, [] => st
  | st, ci, chunk :: rest =>
    runChunks batchId header fault chunkSize
      (runRows batchId header fault st (ci * chunkSize + 1) chunk) (ci + 1) rest

/-- What one ingestion run returns and leaves behind: the finalized batch
record, the contacts table, the log entries, and the in-memory batch-level
error list (serialized into `batch.error_log`). -/
structure ImportResult where
  batch : ImportBatch
  contacts : List Contact
  logs : List LogEntry
  errorList : List String
deriving DecidableEq

/-- The data rows of the ingestion path: every line after the header of the
trimmed content (blank interior lines included). -/
def dataRowsOf (content : String) : List String :=
  (jsSplit '\n' (jsTrim content)).drop 1

/-- The lower-cased, trimmed header of the ingestion path. -/
def headerOf (content : String) : List String :=
  (jsSplit ',' ((jsSplit '\n' (jsTrim content)).getD 0 "")).map (fun col => jsToLower (jsTrim col))

/-- The chunked processing loop of one ingestion run (`for (chunkIndex …)`
over `chunks`, starting from the pre-run contacts table, empty log and
counters). -/
def finalStateOf (content : String) (pre : List Contact) (fault : Nat → Option String)
    (batchId : Nat) : RunState :=
  runChunks batchId (headerOf content) fault CHUNK_SIZE ⟨pre, [], 0, 0, []⟩ 0
    (chunksOf CHUNK_SIZE (dataRowsOf content))

/-- The empty-content guard of the ingestion path (`lines.length === 0 ||
(lines.length === 1 && lines[0].trim() === '')`). -/
def emptyCsv (content : String) : Prop :=
  (jsSplit '\n' (jsTrim content)).length = 0 ∨
    ((jsSplit '\n' (jsTrim content)).length = 1 ∧
      jsTrim ((jsSplit '\n' (jsTrim content)).getD 0 "") = "")

instance (content : String) : Decidable (emptyCsv content) := by
  unfold emptyCsv
  infer_instance

/-- The finalized batch and store state of a completed ingestion run. -/
def mkImportResult (content filename : String) (pre : List Contact)
    (fault : Nat → Option String) (batchId : Nat) (now : Nat) : ImportResult :=
  { batch :=
      ⟨batchId, filename, (dataRowsOf content).length,
        (finalStateOf content pre fault batchId).succ,
        (finalStateOf content pre fault batchId).failed,
        (if (finalStateOf content pre fault batchId).failed = 0 then BatchStatus.completed
         else if (finalStateOf content pre fault batchId).succ = 0 then BatchStatus.failed
         else BatchStatus.completed),
        (if (finalStateOf content pre fault batchId).errorLog.isEmpty then none
         else some (jsonArray (finalStateOf content pre fault batchId).errorLog)),
        some now⟩
    contacts := (finalStateOf content pre fault batchId).contacts
    logs := (finalStateOf content pre fault batchId).logs
    errorList := (finalStateOf content pre fault batchId).errorLog }

/-- The ingestion orchestrator `startImport` (`start_import.ts`), over decoded
CSV text.  `preContacts` is the contacts table before the run, `fault` the
unexpected-exception oracle, `batchId` the id the store assigns to the new
batch, `now` the clock at finalization. -/
def startImport (csvContent filename : String) (preContacts : List Contact)
    (fault : Nat → Option String) (batchId : Nat) (now : Nat) :
    Except String ImportResult :=
  if emptyCsv csvContent then
    .error "CSV file is empty"
  else if requiredColumns.all (fun col => (headerOf csvContent).contains col) then
    .ok (mkImportResult csvContent filename preContacts fault batchId now)
  else
    .error "CSV must contain nombre and apellido columns"

/-- The nominal run: no unexpected exceptions. -/
def noFault : Nat → Option String := fun _ => none

/-! ### Preview engine (`preview_import.ts`) -/

/-- A validated row of the preview report. -/
structure ValidRow where
  rowNumber : Nat
  data : CsvRowData
deriving DecidableEq

/-- An invalid row of the preview report. -/
structure InvalidRow where
  rowNumber : Nat
  errors : List String
  data : List (String × String)
deriving DecidableEq

/-- A duplicate group `⟨key, rowNumbers⟩`. -/
structure DupGroup where
  key : String
  rowNumbers : List Nat
deriving DecidableEq

/-- The preview report (`BatchValidationResult`). -/
structure PreviewResult where
  totalRows : Nat
  validRows : List ValidRow
  invalidRows : List InvalidRow
  duplicateEmails : List DupGroup
  duplicatePhones : List DupGroup
deriving DecidableEq

/-- The preview parser's headers: trimmed, all quotes removed (note: *not*
lower-cased, unlike the ingestion path). -/
def previewHeaders (csvContent : String) : List String :=
  (jsSplit ',' ((jsSplit '\n' (jsTrim csvContent)).getD 0 "")).map
    (fun h => removeQuotes (jsTrim h))

/-- `for (j …) row[headers[j]] = values[j] || ''` of the preview parser. -/
def buildPreviewRowAux (values : List String) : Nat → List String → List (String × String) → List (String × String)
  | _, [], acc => acc
  | idx, h :: hs, acc => buildPreviewRowAux values (idx + 1) hs (jsUpdate h (values.getD idx "") acc)

/-- `parseCsv` of the preview path: skip blank data lines, split remaining
lines on commas, trim and remove all quotes, and key by header. -/
def parseCsv (csvContent : String) : List (List (String × String)) :=
  ((jsSplit '\n' (jsTrim csvContent)).drop 1).filterMap (fun line =>
    if jsTrim line = "" then none
    else
      some (buildPreviewRowAux
        ((jsSplit ',' (jsTrim line)).map (fun v => removeQuotes (jsTrim v))) 0
        (previewHeaders csvContent) []))

/-- The `cleanedRow` of the preview path: trim, required fields default to
`''`, optional fields map `''`/absent to `null`. -/
def cleanPreviewRow (rawRow : List (String × String)) : CsvRowData :=
  { nombre := jsTrim (lookupD rawRow "nombre")
    apellido := jsTrim (lookupD rawRow "apellido")
    email :=
      match lookupStr rawRow "email" with
      | none => .nullv
      | some v => if jsTrim v = "" then .nullv else .str (jsTrim v)
    telefono :=
      match lookupStr rawRow "telefono" with
      | none => .nullv
      | some v => if jsTrim v = "" then .nullv else .str (jsTrim v) }

/-- Validate each parsed row in order (`i` is the 1-based row number of the
first row), producing the valid and invalid lists. -/
def classifyRowsAux : Nat → List (List (String × String)) → List ValidRow × List InvalidRow
  | _, [] => ([], [])
  | i, raw :: rest =>
    if (rowValidationErrors (cleanPreviewRow raw)).isEmpty then
      (⟨i, cleanPreviewRow raw⟩ :: (classifyRowsAux (i + 1) rest).1,
        (classifyRowsAux (i + 1) rest).2)
    else
      ((classifyRowsAux (i + 1) rest).1,
        ⟨i, (rowValidationErrors (cleanPreviewRow raw)).map (fun e => e.1 ++ ": " ++ e.2),
          raw⟩ :: (classifyRowsAux (i + 1) rest).2)

/-- `emailMap.get(email).push(rowNumber)` — append a row number to the group
with the given key, creating the group at the end if absent. -/
def addToGroups (key : String) (rn : Nat) : List DupGroup → List DupGroup
  | [] => [⟨key, [rn]⟩]
  | g :: t => if g.key = key then ⟨g.key, g.rowNumbers ++ [rn]⟩ :: t else g :: addToGroups key rn t

/-- One step of the email grouping loop of `findDuplicateEmails`. -/
def emailGroupStep (acc : List DupGroup) (vr : ValidRow) : List DupGroup :=
  match vr.data.email with
  | .str e => if e = "" then acc else addToGroups (jsToLower e) vr.rowNumber acc
  | _ => acc

/-- One step of the phone grouping loop of `findDuplicatePhones`. -/
def phoneGroupStep (acc : List DupGroup) (vr : ValidRow) : List DupGroup :=
  match vr.data.telefono with
  | .str t => if t = "" then acc else addToGroups t vr.rowNumber acc
  | _ => acc

/-- `findDuplicateEmails`: group valid rows by lower-cased email, keep groups
with more than one row. -/
def findDuplicateEmails (validRows : List ValidRow) : List DupGroup :=
  (validRows.foldl emailGroupStep []).filter (fun g => g.rowNumbers.length > 1)

/-- `findDuplicatePhones`: group valid rows by the exact phone string, keep
groups with more than one row. -/
def findDuplicatePhones (validRows : List ValidRow) : List DupGroup :=
  (validRows.foldl phoneGroupStep []).filter (fun g => g.rowNumbers.length > 1)

/-- The distinct lower-cased emails of the valid rows, in first-seen order. -/
def previewEmailKeys (validRows : List ValidRow) : List String :=
  validRows.foldl
    (fun acc vr =>
      match vr.data.email with
      | .str e =>
        if e = "" then acc
        else if acc.contains (jsToLower e) then acc else acc ++ [jsToLower e]
      | _ => acc) []

/-- The distinct phones of the valid rows, in first-seen order. -/
def previewPhoneKeys (validRows : List ValidRow) : List String :=
  validRows.foldl
    (fun acc vr =>
      match vr.data.telefono with
      | .str t => if t = "" then acc else if acc.contains t then acc else acc ++ [t]
      | _ => acc) []

/-- Merge a store match into the duplicate groups: append the row number to
the group with the key if not already present, else create a single-row
group at the end. -/
def addDbDup (key : String) (rn : Nat) : List DupGroup → List DupGroup
  | [] => [⟨key, [rn]⟩]
  | g :: t =>
    if g.key = key then
      (if g.rowNumbers.contains rn then g :: t else ⟨g.key, g.rowNumbers ++ [rn]⟩ :: t)
    else g :: addDbDup key rn t

/-- One step of the store-merge loop of `checkDatabaseDuplicates`: add the
row to the email groups when its lower-cased email matches the store, and to
the phone groups when its phone matches. -/
def dbDupStep (existingEmails existingPhones : List String)
    (acc : List DupGroup × List DupGroup) (vr : ValidRow) :
    List DupGroup × List DupGroup :=
  ((match vr.data.email with
    | .str e =>
      if e ≠ "" ∧ existingEmails.contains (jsToLower e) then
        addDbDup (jsToLower e) vr.rowNumber acc.1
      else acc.1
    | _ => acc.1),
   (match vr.data.telefono with
    | .str t =>
      if t ≠ "" ∧ existingPhones.contains t then addDbDup t vr.rowNumber acc.2
      else acc.2
    | _ => acc.2))

/-- The store contacts the single duplicate query of the preview returns:
those matching any collected email key or phone key. -/
def storeMatchesOf (validRows : List ValidRow) (store : List Contact) : List Contact :=
  store.filter (fun c =>
    (match c.email with
      | some v => (previewEmailKeys validRows).contains v
      | none => false) ||
    (match c.telefono with
      | some v => (previewPhoneKeys validRows).contains v
      | none => false))

/-- `checkDatabaseDuplicates`: one store query for all collected keys, then
merge every matching row into the duplicate groups. -/
def checkDatabaseDuplicates (validRows : List ValidRow) (store : List Contact)
    (dupE dupP : List DupGroup) : List DupGroup × List DupGroup :=
  if (previewEmailKeys validRows).isEmpty ∧ (previewPhoneKeys validRows).isEmpty then
    (dupE, dupP)
  else
    validRows.foldl
      (dbDupStep
        ((((storeMatchesOf validRows store).filterMap Contact.email).map jsToLower).filter
          (fun s => !s.data.isEmpty))
        (((storeMatchesOf validRows store).filterMap Contact.telefono).filter
          (fun s => !s.data.isEmpty)))
      (dupE, dupP)

/-- The valid rows of the preview classification of `content`. -/
def previewValid (content : String) : List ValidRow :=
  (classifyRowsAux 1 (parseCsv content)).1

/-- The invalid rows of the preview classification of `content`. -/
def previewInvalid (content : String) : List InvalidRow :=
  (classifyRowsAux 1 (parseCsv content)).2

/-- The duplicate groups of the preview of `content` against `store`:
batch-scan groups merged with the store matches. -/
def previewDups (content : String) (store : List Contact) : List DupGroup × List DupGroup :=
  checkDatabaseDuplicates (previewValid content) store
    (findDuplicateEmails (previewValid content)) (findDuplicatePhones (previewValid content))

/-- The preview engine `previewImport` (`preview_import.ts`) as a function of
the decoded CSV text and the contacts store it reads. -/
def previewImport (csvContent : String) (store : List Contact) : PreviewResult :=
  if (parseCsv csvContent).length = 0 then ⟨0, [], [], [], []⟩
  else
    ⟨(parseCsv csvContent).length, previewValid csvContent, previewInvalid csvContent,
      (previewDups csvContent store).1, (previewDups csvContent store).2⟩

/-! ### Persistent-store framing of the preview path -/

/-- The whole persistent store. -/
structure DBState where
  contacts : List Contact
  batches : List ImportBatch
  logEntries : List LogEntry
deriving DecidableEq

/-- The only database operation the preview path performs: a `select` on the
contacts table. -/
def dbSelectContacts (db : DBState) : DBState × List Contact := (db, db.contacts)

/-- `previewImport` with the persistent store threaded through every database
operation it performs (a single read). -/
def previewImportSt (csvContent : String) (db : DBState) : DBState × PreviewResult :=
  let p := dbSelectContacts db
  (p.1, previewImport csvContent p.2)

/-! ### Status reporter (`getImportStatus`) -/

/-- The progress snapshot (`ImportProgress`). -/
structure ImportProgress where
  batchId : Nat
  status : BatchStatus
  totalRecords : Nat
  processedRecords : Nat
  successfulRecords : Nat
  failedRecords : Nat
  errors : List String
deriving DecidableEq

/-- `getImportStatus`: look the batch up, count its log entries, take the
first 10 error entries' messages, and prepend the batch-level error text. -/
def getImportStatus (batches : List ImportBatch) (logs : List LogEntry)
    (batchId : Nat) : Option ImportProgress :=
  match batches.filter (fun b => b.id == batchId) with
  | [] => none
  | batch :: _ =>
    let processedRecords := (logs.filter (fun e => e.import_batch_id == batchId)).length
    let errorResults :=
      (logs.filter (fun e => e.import_batch_id == batchId && e.status == LogStatus.error)).take 10
    let rowErrors := errorResults.filterMap LogEntry.error_message
    let errors :=
      match batch.error_log with
      | some t => t :: rowErrors
      | none => rowErrors
    some
      ⟨batch.id, batch.status, batch.total_records, processedRecords,
        batch.successful_records, batch.failed_records, errors⟩

/-! ### Log retrieval (`getImportLog`) -/

/-- Modelled from the spec: `get_import_log.ts` holds only a placeholder
declaration, so the handler is modelled from the spec's words — "returns all
log entries for the batch ordered by row number ascending, regardless of
insertion order" (an explicit stable sort of the batch's entries). -/
def getImportLog (logs : List LogEntry) (batchId : Nat) : List LogEntry :=
  List.insertionSort (fun a b => a.row_number ≤ b.row_number)
    (logs.filter (fun e => e.import_batch_id == batchId))

/-! ### Audit export (`download_import_log.ts`, per-entry rendering) -/

/-- CSV escaping of the export: wrap in quotes and double internal quotes when
the value contains a comma, a quote or a newline. -/
def escapeCsvValue (value : String) : String :=
  if value.data.contains ',' || value.data.contains '"' || value.data.contains '\n' then
    "\"" ++ String.mk (value.data.foldr (fun c acc => if c = '"' then '"' :: '"' :: acc else c :: acc) []) ++ "\""
  else value

/-- One data line of the export: parse the entry's stored `raw_data` (all four
fields default to empty on a parse failure), and emit the escaped columns. -/
def renderLogLine (entry : LogEntry) : String :=
  let rawData := (parseJsonRecord entry.raw_data).getD []
  let estado := if entry.status = LogStatus.success then "Exitoso" else "Error"
  let errorMessage := entry.error_message.getD ""
  joinWith ","
    [toString entry.row_number, escapeCsvValue estado, escapeCsvValue errorMessage,
      escapeCsvValue (lookupD rawData "nombre"), escapeCsvValue (lookupD rawData "apellido"),
      escapeCsvValue (lookupD rawData "email"), escapeCsvValue (lookupD rawData "telefono")]

deriving instance DecidableEq for Except

/-! ### Derived run descriptions -/

/-- The run state an ingestion run over `content` ends in (chunking flattened
away; proven equal to the chunked loop below). -/
def runOf (content : String) (pre : List Contact) (fault : Nat → Option String)
    (bid : Nat) : RunState :=
  runRows bid (headerOf content) fault ⟨pre, [], 0, 0, []⟩ 1 (dataRowsOf content)

/-- Count the stored contacts carrying a given email. -/
def countEmail (e : String) (l : List Contact) : Nat :=
  l.countP (fun c => c.email == some e)

/-- The run state just before the 1-based row `i` is processed. -/
def stBefore (content : String) (pre : List Contact) (fault : Nat → Option String)
    (bid i : Nat) : RunState :=
  runRows bid (headerOf content) fault ⟨pre, [], 0, 0, []⟩ 1
    ((dataRowsOf content).take (i - 1))

/-- The contact a successfully processed row inserts. -/
def insertedContact (content : String) (i : Nat) : Contact :=
  ⟨(processedOf (headerOf content) ((dataRowsOf content).getD (i - 1) "")).nombre,
   (processedOf (headerOf content) ((dataRowsOf content).getD (i - 1) "")).apellido,
   (processedOf (headerOf content) ((dataRowsOf content).getD (i - 1) "")).email.toDb,
   (processedOf (headerOf content) ((dataRowsOf content).getD (i - 1) "")).telefono.toDb⟩

/-! ### Concrete instances used by witnesses and counterexamples -/

/-- A minimal well-formed file: one valid data row. -/
def csvSimple : String := "nombre,apellido\nJuan,Perez"

/-- A file with a blank interior line between two valid data rows. -/
def csvBlankLine : String := "nombre,apellido\nJuan,Perez\n\nMaria,Garcia"

/-- A file whose header lacks the mandatory columns. -/
def csvNoNombre : String := "email,telefono\nx@y.com,123"

/-- A file whose header has `nombre` but lacks `apellido`. -/
def csvNoApellido : String := "nombre,email\nJuan,x@y.com"

/-- Two rows sharing an email where the first row fails validation. -/
def csvInvalidFirst : String := "nombre,apellido,email\n,Perez,a@b.com\nJuan,Perez,a@b.com"

/-- Two valid rows with exactly equal emails. -/
def csvExactDup : String := "nombre,apellido,email\nJuan,Perez,a@b.com\nMaria,Lopez,a@b.com"

/-- Two valid rows whose emails are equal only case-insensitively. -/
def csvCaseDup : String := "nombre,apellido,email\nJuan,Perez,A@b.com\nMaria,Lopez,a@b.com"

/-- A finalized batch carrying a batch-level error text. -/
def batchWithErrors : ImportBatch :=
  ⟨1, "f.csv", 10, 0, 10, .completed, some "batch-level failure", some 0⟩

/-- Ten row-level error entries for `batchWithErrors`. -/
def tenErrorEntries : List LogEntry :=
  (List.range 10).map (fun n => ⟨1, n + 1, .error, some ("e" ++ toString (n + 1)), "x"⟩)

/-- Log entries of two batches, inserted out of row order. -/
def scrambledLogs : List LogEntry :=
  [⟨1, 10, .success, none, "a"⟩, ⟨2, 1, .error, some "x", "b"⟩,
   ⟨1, 3, .error, some "y", "c"⟩, ⟨1, 1, .success, none, "d"⟩]

/-- A fault oracle that fails row 1 with message `boom`. -/
def faultRow1 : Nat → Option String := fun i => if i = 1 then some "boom" else none

/-- The status snapshot of `batchWithErrors` over `tenErrorEntries`. -/
def progress7 : ImportProgress :=
  (getImportStatus [batchWithErrors] tenErrorEntries 1).getD ⟨0, .pending, 0, 0, 0, 0, []⟩

/-! ## Run machinery -/

theorem runRows_append (bid : Nat) (hdr : List String) (fault : Nat → Option String)
    (a b : List String) (st : RunState) (i : Nat) :
    runRows bid hdr fault st i (a ++ b) =
      runRows bid hdr fault (runRows bid hdr fault st i a) (i + a.length) b := by
  induction a generalizing st i with
  | nil => simp [runRows]
  | cons x xs ih =>
    simp only [List.cons_append, runRows, List.append_eq]
    rw [ih]
    have h : i + 1 + xs.length = i + (xs.length + 1) := by omega
    simp [h]

theorem runChunks_chunksOfAux (bid : Nat) (hdr : List String) (fault : Nat → Option String)
    (C : Nat) (hC : 0 < C) :
    ∀ (fuel : Nat) (l : List String) (st : RunState) (ci : Nat), l.length < fuel →
      runChunks bid hdr fault C st ci (chunksOfAux C fuel l) =
        runRows bid hdr fault st (ci * C + 1) l := by
  intro fuel
  induction fuel with
  | zero => intro l st ci h; exact absurd h (Nat.not_lt_zero _)
  | succ fuel ih =>
    intro l st ci h
    cases l with
    | nil => simp [chunksOfAux, runChunks, runRows]
    | cons x xs =>
      have hxs : (List.drop C (x :: xs)).length < fuel := by
        rw [List.length_drop]
        simp only [List.length_cons] at h ⊢
        omega
      show runChunks bid hdr fault C
          (runRows bid hdr fault st (ci * C + 1) ((x :: xs).take C)) (ci + 1)
          (chunksOfAux C fuel ((x :: xs).drop C)) = _
      rw [ih _ _ _ hxs]
      by_cases hlen : (x :: xs).length ≤ C
      · rw [List.drop_eq_nil_of_le hlen, List.take_of_length_le hlen]
        simp [runRows]
      · have htake : ((x :: xs).take C).length = C := by
          rw [List.length_take]
          omega
        conv_rhs => rw [← List.take_append_drop C (x :: xs)]
        rw [runRows_append, htake]
        have hidx : ci * C + 1 + C = (ci + 1) * C + 1 := by ring
        rw [hidx]

theorem runChunks_chunksOf (bid : Nat) (hdr : List String) (fault : Nat → Option String)
    (l : List String) (st : RunState) :
    runChunks bid hdr fault CHUNK_SIZE st 0 (chunksOf CHUNK_SIZE l) =
      runRows bid hdr fault st 1 l := by
  have h := runChunks_chunksOfAux bid hdr fault CHUNK_SIZE (by simp [CHUNK_SIZE])
    (l.length + 1) l st 0 (Nat.lt_succ_self _)
  simpa [chunksOf] using h

theorem startImport_ok {content filename : String} {pre : List Contact}
    {fault : Nat → Option String} {bid now : Nat} {res : ImportResult}
    (h : startImport content filename pre fault bid now = .ok res) :
    res =
      ⟨⟨bid, filename, (dataRowsOf content).length, (runOf content pre fault bid).succ,
        (runOf content pre fault bid).failed,
        (if (runOf content pre fault bid).failed = 0 then BatchStatus.completed
         else if (runOf content pre fault bid).succ = 0 then BatchStatus.failed
         else BatchStatus.completed),
        (if (runOf content pre fault bid).errorLog.isEmpty then none
         else some (jsonArray (runOf content pre fault bid).errorLog)),
        some now⟩,
       (runOf content pre fault bid).contacts,
       (runOf content pre fault bid).logs,
       (runOf content pre fault bid).errorLog⟩ := by
  have hflat : finalStateOf content pre fault bid = runOf content pre fault bid :=
    runChunks_chunksOf bid (headerOf content) fault (dataRowsOf content) _
  unfold startImport at h
  split at h
  · exact absurd h (by simp)
  · split at h
    · injection h with h
      rw [← h]
      unfold mkImportResult
      rw [hflat]
    · exact absurd h (by simp)

theorem processRow_shape (bid : Nat) (hdr : List String) (fault : Nat → Option String)
    (st : RunState) (i : Nat) (row : String) :
    ∃ e : LogEntry, e.import_batch_id = bid ∧ e.row_number = i ∧
      (processRow bid hdr fault st i row).logs = st.logs ++ [e] ∧
      (processRow bid hdr fault st i row).succ + (processRow bid hdr fault st i row).failed =
        st.succ + st.failed + 1 ∧
      (∃ t : List Contact, (processRow bid hdr fault st i row).contacts = st.contacts ++ t) := by
  unfold processRow
  cases hf : fault i with
  | some msg =>
    exact ⟨_, rfl, rfl, rfl, by dsimp only; omega, [], by simp⟩
  | none =>
    dsimp only
    split
    · split
      · exact ⟨_, rfl, rfl, rfl, by dsimp only; omega, _, rfl⟩
      · exact ⟨_, rfl, rfl, rfl, by dsimp only; omega, [], by simp⟩
    · exact ⟨_, rfl, rfl, rfl, by dsimp only; omega, [], by simp⟩

theorem runRows_shape (bid : Nat) (hdr : List String) (fault : Nat → Option String) :
    ∀ (rows : List String) (st : RunState) (i : Nat),
      ∃ es : List LogEntry,
        (runRows bid hdr fault st i rows).logs = st.logs ++ es ∧
        es.map (fun e => e.row_number) = List.range' i rows.length ∧
        (∀ e ∈ es, e.import_batch_id = bid) ∧
        (runRows bid hdr fault st i rows).succ + (runRows bid hdr fault st i rows).failed =
          st.succ + st.failed + rows.length ∧
        (∃ t : List Contact, (runRows bid hdr fault st i rows).contacts = st.contacts ++ t) := by
  intro rows
  induction rows with
  | nil =>
    intro st i
    exact ⟨[], by simp [runRows], by simp [runRows], by simp, by simp [runRows], [], by simp [runRows]⟩
  | cons row rest ih =>
    intro st i
    obtain ⟨e, hbid, hrn, hlog, hcnt, t, hct⟩ := processRow_shape bid hdr fault st i row
    obtain ⟨es, hlog', hmap', hbid', hcnt', t', hct'⟩ := ih (processRow bid hdr fault st i row) (i + 1)
    refine ⟨e :: es, ?_, ?_, ?_, ?_, t ++ t', ?_⟩
    · show (runRows bid hdr fault (processRow bid hdr fault st i row) (i + 1) rest).logs = _
      rw [hlog', hlog, List.append_assoc]
      rfl
    · simp only [List.map_cons, hmap', hrn, List.length_cons]
      rw [List.range'_succ]
    · intro x hx
      rcases List.mem_cons.mp hx with h | h
      · subst h; exact hbid
      · exact hbid' x h
    · show (runRows bid hdr fault (processRow bid hdr fault st i row) (i + 1) rest).succ +
          (runRows bid hdr fault (processRow bid hdr fault st i row) (i + 1) rest).failed =
          st.succ + st.failed + (row :: rest).length
      rw [hcnt', hcnt]
      simp only [List.length_cons]
      omega
    · show (runRows bid hdr fault (processRow bid hdr fault st i row) (i + 1) rest).contacts = _
      rw [hct', hct, List.append_assoc]

/-! ## C9 — the preview path is read-only and idempotent -/

/-- C9: `previewImport` performs no writes — the persistent store (contacts,
batches, log entries) is identical before and after the call — and a second
call on identical content therefore returns the identical validity and
duplicate classification. -/
theorem c9_preview_pure (csvContent : String) (db : DBState) :
    (previewImportSt csvContent db).1 = db ∧
    (previewImportSt csvContent (previewImportSt csvContent db).1).2 =
      (previewImportSt csvContent db).2 :=
  ⟨rfl, rfl⟩

/-! ## C2 — counter invariant at the terminal state -/

/-- C2: every run that returns a finalized batch satisfies
`successful_records + failed_records = total_records`, and `total_records` is
the number of data rows after the header. -/
theorem c2_counts (content filename : String) (pre : List Contact)
    (fault : Nat → Option String) (bid now : Nat) (res : ImportResult)
    (h : startImport content filename pre fault bid now = .ok res) :
    res.batch.successful_records + res.batch.failed_records = res.batch.total_records ∧
    res.batch.total_records = (dataRowsOf content).length := by
  rw [startImport_ok h]
  dsimp only
  refine ⟨?_, rfl⟩
  obtain ⟨es, _, _, _, hcnt, _⟩ :=
    runRows_shape bid (headerOf content) fault (dataRowsOf content) ⟨pre, [], 0, 0, []⟩ 1
  simpa [runOf] using hcnt

/-- Witness for C2 at a concrete one-row file. -/
theorem c2_counts_witness :
    startImport csvSimple "f.csv" [] noFault 1 0 =
      .ok (mkImportResult csvSimple "f.csv" [] noFault 1 0) ∧
    ((mkImportResult csvSimple "f.csv" [] noFault 1 0).batch.successful_records +
        (mkImportResult csvSimple "f.csv" [] noFault 1 0).batch.failed_records =
        (mkImportResult csvSimple "f.csv" [] noFault 1 0).batch.total_records ∧
      (mkImportResult csvSimple "f.csv" [] noFault 1 0).batch.total_records =
        (dataRowsOf csvSimple).length) :=
  ⟨by decide, c2_counts csvSimple "f.csv" [] noFault 1 0 _ (by decide)⟩

/-! ## C3 — final status computation -/

/-- C3: at finalization, `failed_records = 0` gives status `completed`,
`successful_records = 0` with failures gives `failed`, a mixed outcome gives
`completed`, and `completed_at` is set to the clock of the same terminal
update. -/
theorem c3_final_status (content filename : String) (pre : List Contact)
    (fault : Nat → Option String) (bid now : Nat) (res : ImportResult)
    (h : startImport content filename pre fault bid now = .ok res) :
    (res.batch.failed_records = 0 → res.batch.status = .completed) ∧
    (res.batch.successful_records = 0 ∧ 0 < res.batch.failed_records →
      res.batch.status = .failed) ∧
    (0 < res.batch.successful_records ∧ 0 < res.batch.failed_records →
      res.batch.status = .completed) ∧
    res.batch.completed_at = some now := by
  rw [startImport_ok h]
  dsimp only
  refine ⟨fun hc => ?_, fun hc => ?_, fun hc => ?_, rfl⟩
  · rw [if_pos hc]
  · rw [if_neg (by omega), if_pos hc.1]
  · rw [if_neg (by omega), if_neg (by omega)]

/-- Witness for C3 at a concrete one-row file. -/
theorem c3_final_status_witness :
    ((mkImportResult csvSimple "f.csv" [] noFault 1 5).batch.failed_records = 0 →
      (mkImportResult csvSimple "f.csv" [] noFault 1 5).batch.status = .completed) ∧
    ((mkImportResult csvSimple "f.csv" [] noFault 1 5).batch.successful_records = 0 ∧
        0 < (mkImportResult csvSimple "f.csv" [] noFault 1 5).batch.failed_records →
      (mkImportResult csvSimple "f.csv" [] noFault 1 5).batch.status = .failed) ∧
    (0 < (mkImportResult csvSimple "f.csv" [] noFault 1 5).batch.successful_records ∧
        0 < (mkImportResult csvSimple "f.csv" [] noFault 1 5).batch.failed_records →
      (mkImportResult csvSimple "f.csv" [] noFault 1 5).batch.status = .completed) ∧
    (mkImportResult csvSimple "f.csv" [] noFault 1 5).batch.completed_at = some 5 :=
  c3_final_status csvSimple "f.csv" [] noFault 1 5 _ (by decide)

/-! ## C7 — the status error list -/

/-- C7 counterexample: with a batch-level error text and ten row-level error
entries the status response carries 11 error strings — the claimed total cap
of 10 (with the row budget reduced to 9) does not hold. -/
theorem c7_counterexample :
    (getImportStatus [batchWithErrors] tenErrorEntries 1).map (fun p => p.errors.length) =
      some 11 ∧ ¬ (11 ≤ 10) :=
  ⟨by decide, by decide⟩

/-- C7 (amended): the error list is the batch-level error text (when present)
first, followed by up to 10 row error messages in log order; the list is
capped at 11 entries, and at 10 when there is no batch-level text (the code
takes 10 row errors and then prepends the batch text without reducing the
budget). -/
theorem c7_errors_shape (batches : List ImportBatch) (logs : List LogEntry)
    (batchId : Nat) (b : ImportBatch) (p : ImportProgress)
    (hb : (batches.filter (fun x => x.id == batchId)).head? = some b)
    (h : getImportStatus batches logs batchId = some p) :
    p.errors = b.error_log.toList ++
      ((logs.filter (fun e => e.import_batch_id == batchId && e.status == LogStatus.error)).take
          10).filterMap LogEntry.error_message ∧
    p.errors.length ≤ 11 ∧
    (b.error_log = none → p.errors.length ≤ 10) := by
  unfold getImportStatus at h
  split at h
  · exact absurd h (by simp)
  · next batch rest hfilter =>
    rw [hfilter] at hb
    simp only [List.head?_cons, Option.some.injEq] at hb
    subst hb
    injection h with h
    subst h
    have hlen : (((logs.filter
        (fun e => e.import_batch_id == batchId && e.status == LogStatus.error)).take
          10).filterMap LogEntry.error_message).length ≤ 10 :=
      le_trans (List.length_filterMap_le _ _) (List.length_take_le _ _)
    refine ⟨?_, ?_, ?_⟩
    · cases batch.error_log <;> rfl
    · cases hel : batch.error_log <;> simp [hel] <;> omega
    · intro hel
      simp [hel]
      omega

/-- Witness for C7 at the concrete batch and log entries. -/
theorem c7_errors_shape_witness :
    progress7.errors = batchWithErrors.error_log.toList ++
      ((tenErrorEntries.filter
          (fun e => e.import_batch_id == 1 && e.status == LogStatus.error)).take
            10).filterMap LogEntry.error_message ∧
    progress7.errors.length ≤ 11 ∧
    (batchWithErrors.error_log = none → progress7.errors.length ≤ 10) :=
  c7_errors_shape [batchWithErrors] tenErrorEntries 1 batchWithErrors progress7
    (by decide) (by decide)

/-! ## C8 — log retrieval is ordered by row number -/

/-- C8: `getImportLog` returns exactly the log entries of the batch (a
permutation of the filtered list, for any insertion order), with row numbers
strictly increasing whenever the batch's entries carry distinct row numbers,
and the empty list for an unknown batch id.  (The handler body is modelled
from the spec: the repository file contains only a placeholder.) -/
theorem c8_log_ordered (logs : List LogEntry) (batchId : Nat) :
    (getImportLog logs batchId).Perm
      (logs.filter (fun e => e.import_batch_id == batchId)) ∧
    (((logs.filter (fun e => e.import_batch_id == batchId)).map
        LogEntry.row_number).Nodup →
      List.Chain' (· < ·) ((getImportLog logs batchId).map LogEntry.row_number)) ∧
    ((∀ e ∈ logs, e.import_batch_id ≠ batchId) → getImportLog logs batchId = []) := by
  refine ⟨List.perm_insertionSort _ _, ?_, ?_⟩
  · intro hnd
    have hsorted : List.Sorted (fun a b : LogEntry => a.row_number ≤ b.row_number)
        (getImportLog logs batchId) := by
      haveI : IsTotal LogEntry (fun a b => a.row_number ≤ b.row_number) :=
        ⟨fun a b => Nat.le_total _ _⟩
      haveI : IsTrans LogEntry (fun a b => a.row_number ≤ b.row_number) :=
        ⟨fun a b c hab hbc => Nat.le_trans hab hbc⟩
      exact List.sorted_insertionSort _ _
    have hperm := List.perm_insertionSort
      (fun a b : LogEntry => a.row_number ≤ b.row_number)
      (logs.filter (fun e => e.import_batch_id == batchId))
    have hnd' : ((getImportLog logs batchId).map LogEntry.row_number).Nodup :=
      hnd.perm (hperm.map LogEntry.row_number).symm
    have hpair : ((getImportLog logs batchId).map LogEntry.row_number).Pairwise (· ≤ ·) :=
      (List.pairwise_map).mpr hsorted
    exact ((hpair.and hnd').imp (fun h => lt_of_le_of_ne h.1 h.2)).chain'
  · intro hnone
    have hfil : logs.filter (fun e => e.import_batch_id == batchId) = [] := by
      rw [List.filter_eq_nil_iff]
      intro e he
      simpa using hnone e he
    rw [getImportLog, hfil]
    rfl

/-- Witness for C8 at concrete scrambled log entries (and an unknown id). -/
theorem c8_log_ordered_witness :
    (getImportLog scrambledLogs 1).Perm
      (scrambledLogs.filter (fun e => e.import_batch_id == 1)) ∧
    List.Chain' (· < ·) ((getImportLog scrambledLogs 1).map LogEntry.row_number) ∧
    getImportLog scrambledLogs 99 = [] :=
  ⟨(c8_log_ordered scrambledLogs 1).1,
   (c8_log_ordered scrambledLogs 1).2.1 (by decide),
   (c8_log_ordered scrambledLogs 99).2.2 (by decide)⟩

/-! ## Decomposition of a run at one row -/

theorem runRows_errorLog_mono (bid : Nat) (hdr : List String) (fault : Nat → Option String) :
    ∀ (rows : List String) (st : RunState) (i : Nat),
      ∃ t, (runRows bid hdr fault st i rows).errorLog = st.errorLog ++ t := by
  intro rows
  induction rows with
  | nil => intro st i; exact ⟨[], by simp [runRows]⟩
  | cons row rest ih =>
    intro st i
    obtain ⟨t, ht⟩ := ih (processRow bid hdr fault st i row) (i + 1)
    have hp : ∃ u, (processRow bid hdr fault st i row).errorLog = st.errorLog ++ u := by
      unfold processRow
      cases fault i with
      | some msg => exact ⟨_, rfl⟩
      | none =>
        dsimp only
        split
        · split
          · exact ⟨[], by simp⟩
          · exact ⟨[], by simp⟩
        · exact ⟨[], by simp⟩
    obtain ⟨u, hu⟩ := hp
    exact ⟨u ++ t, by
      show (runRows bid hdr fault (processRow bid hdr fault st i row) (i + 1) rest).errorLog = _
      rw [ht, hu, List.append_assoc]⟩

theorem runRows_decompose (bid : Nat) (hdr : List String) (fault : Nat → Option String)
    (rows : List String) (st : RunState) (i0 k : Nat) (hk : k < rows.length) :
    runRows bid hdr fault st i0 rows =
      runRows bid hdr fault
        (processRow bid hdr fault (runRows bid hdr fault st i0 (rows.take k))
          (i0 + k) (rows.getD k ""))
        (i0 + k + 1) (rows.drop (k + 1)) := by
  conv_lhs => rw [← List.take_append_drop k rows]
  rw [runRows_append]
  have hdrop : rows.drop k = rows.getD k "" :: rows.drop (k + 1) := by
    rw [List.getD_eq_getElem rows "" hk]
    exact List.drop_eq_getElem_cons hk
  rw [hdrop]
  have htl : (rows.take k).length = k := by
    rw [List.length_take]
    omega
  rw [htl]
  rfl

/-! ## C10 — unexpected-error entries store `{}` as raw data -/

/-- C10: when an unexpected exception with message `msg` hits row `j`, the
appended error log entry stores the literal empty JSON object string as its
`raw_data` (not the row's field values), so the audit export renders all four
contact fields of that row as empty strings; the message is still recorded in
the entry and in the batch-level error list. -/
theorem c10_fault_raw_data (content filename : String) (pre : List Contact)
    (fault : Nat → Option String) (bid now j : Nat) (msg : String) (res : ImportResult)
    (h : startImport content filename pre fault bid now = .ok res)
    (hj1 : 1 ≤ j) (hj : j ≤ (dataRowsOf content).length)
    (hfault : fault j = some msg) :
    (⟨bid, j, .error, some msg, "{}"⟩ : LogEntry) ∈ res.logs ∧
    renderLogLine ⟨bid, j, .error, some msg, "{}"⟩ =
      joinWith "," [toString j, "Error", escapeCsvValue msg, "", "", "", ""] ∧
    ("Row " ++ toString j ++ ": " ++ msg) ∈ res.errorList := by
  rw [startImport_ok h]
  dsimp only
  have hdec := runRows_decompose bid (headerOf content) fault (dataRowsOf content)
    ⟨pre, [], 0, 0, []⟩ 1 (j - 1) (by omega)
  have hidx : 1 + (j - 1) = j := by omega
  rw [hidx] at hdec
  have hj1' : j - 1 + 1 = j := by omega
  rw [hj1'] at hdec
  set st1 := runRows bid (headerOf content) fault ⟨pre, [], 0, 0, []⟩ 1
    ((dataRowsOf content).take (j - 1)) with hst1
  have hstep : processRow bid (headerOf content) fault st1 j
      ((dataRowsOf content).getD (j - 1) "") =
      { st1 with
        failed := st1.failed + 1
        errorLog := st1.errorLog ++ ["Row " ++ toString j ++ ": " ++ msg]
        logs := st1.logs ++ [⟨bid, j, .error, some msg, "{}"⟩] } := by
    unfold processRow
    rw [hfault]
  refine ⟨?_, ?_, ?_⟩
  · show _ ∈ (runOf content pre fault bid).logs
    rw [runOf, hdec, hstep]
    obtain ⟨es, hlogs, _, _, _, _⟩ := runRows_shape bid (headerOf content) fault
      ((dataRowsOf content).drop j) _ (j + 1)
    rw [hlogs]
    dsimp only
    exact List.mem_append_left _ (List.mem_append_right _ (List.mem_singleton_self _))
  · rfl
  · show _ ∈ (runOf content pre fault bid).errorLog
    rw [runOf, hdec, hstep]
    obtain ⟨t, ht⟩ := runRows_errorLog_mono bid (headerOf content) fault
      ((dataRowsOf content).drop j) _ (j + 1)
    rw [ht]
    dsimp only
    exact List.mem_append_left _ (List.mem_append_right _ (List.mem_singleton_self _))

/-- Witness for C10: a fault at row 1 of a two-row file. -/
theorem c10_fault_raw_data_witness :
    (⟨1, 1, .error, some "boom", "{}"⟩ : LogEntry) ∈
      (mkImportResult csvExactDup "f.csv" [] faultRow1 1 0).logs ∧
    renderLogLine ⟨1, 1, .error, some "boom", "{}"⟩ =
      joinWith "," [toString 1, "Error", escapeCsvValue "boom", "", "", "", ""] ∧
    ("Row " ++ toString 1 ++ ": " ++ "boom") ∈
      (mkImportResult csvExactDup "f.csv" [] faultRow1 1 0).errorList :=
  c10_fault_raw_data csvExactDup "f.csv" [] faultRow1 1 0 1 "boom" _
    (by decide) (by decide) (by decide) (by decide)

/-! ## C4 — preview and ingestion row counts -/

theorem length_filterMap_all_isSome {α β : Type} (f : α → Option β) (l : List α)
    (h : ∀ a ∈ l, (f a).isSome) : (l.filterMap f).length = l.length := by
  induction l with
  | nil => rfl
  | cons x xs ih =>
    have hx := h x (List.mem_cons_self _ _)
    cases hfx : f x with
    | none => rw [hfx] at hx; simp at hx
    | some b =>
      simp only [List.filterMap_cons, hfx, List.length_cons]
      rw [ih (fun a ha => h a (List.mem_cons_of_mem _ ha))]

theorem parseCsv_length_of_no_blank (content : String)
    (hnb : ∀ line ∈ dataRowsOf content, jsTrim line ≠ "") :
    (parseCsv content).length = (dataRowsOf content).length := by
  apply length_filterMap_all_isSome
  intro line hline
  rw [if_neg (hnb line hline)]
  rfl

/-- C4 counterexample: on a file with a blank interior data line the preview
reports 2 rows while the same ingestion run reports 3 total records — the two
paths do not treat blank lines identically. -/
theorem c4_counterexample :
    (previewImport csvBlankLine []).totalRows = 2 ∧
    (startImport csvBlankLine "f.csv" [] noFault 1 0).map
      (fun r => r.batch.total_records) = .ok 3 ∧
    ¬ (2 = 3) :=
  ⟨by decide, by decide, by decide⟩

/-- C4 (amended): whenever no data line of the file is blank after trimming,
`totalRows` of the preview equals `total_records` of the ingestion run on the
same content.  (On blank interior lines the paths differ: the ingestion
parser counts them as data rows, the preview parser skips them.) -/
theorem c4_totals_agree (content filename : String) (store pre : List Contact)
    (fault : Nat → Option String) (bid now : Nat) (res : ImportResult)
    (hnb : ∀ line ∈ dataRowsOf content, jsTrim line ≠ "")
    (h : startImport content filename pre fault bid now = .ok res) :
    (previewImport content store).totalRows = res.batch.total_records := by
  rw [startImport_ok h]
  dsimp only
  have hlen := parseCsv_length_of_no_blank content hnb
  unfold previewImport
  split
  · next h0 => dsimp only; omega
  · dsimp only; exact hlen

/-- Witness for C4 at a concrete blank-free file. -/
theorem c4_totals_agree_witness :
    (previewImport csvSimple []).totalRows =
      (mkImportResult csvSimple "f.csv" [] noFault 1 0).batch.total_records :=
  c4_totals_agree csvSimple "f.csv" [] [] noFault 1 0 _ (by decide) (by decide)

/-! ## C5 — fail-fast on empty content and missing mandatory headers -/

/-- C5 counterexample: on a file whose header lacks `nombre` and `apellido`,
`startImport` fails, but `previewImport` does not fail — it returns a full
report that has processed the data row (classified invalid). -/
theorem c5_counterexample :
    startImport csvNoNombre "f.csv" [] noFault 1 0 =
      .error "CSV must contain nombre and apellido columns" ∧
    (previewImport csvNoNombre []).totalRows = 1 ∧
    (previewImport csvNoNombre []).invalidRows ≠ [] :=
  ⟨by decide, by decide, by decide⟩

theorem lookupStr_jsUpdate_ne (k v k' : String) (r : List (String × String))
    (h : k' ≠ k) : lookupStr (jsUpdate k v r) k' = lookupStr r k' := by
  induction r with
  | nil =>
    simp only [jsUpdate, lookupStr, List.find?]
    rw [show ((k, v).1 == k') = false by simpa using fun he => h he.symm]
  | cons p t ih =>
    by_cases hp : p.1 = k
    · simp only [jsUpdate, if_pos hp, lookupStr, List.find?]
      rw [show ((k, v).1 == k') = false by simpa using fun he => h he.symm,
        show (p.1 == k') = false by simpa using fun he => h (hp ▸ he).symm]
    · simp only [jsUpdate, if_neg hp, lookupStr, List.find?]
      cases hpk : (p.1 == k') with
      | true => rfl
      | false => exact ih

theorem buildPreviewRowAux_lookup_none (vs : List String) (k : String) :
    ∀ (hs : List String) (idx : Nat) (acc : List (String × String)),
      k ∉ hs → lookupStr acc k = none →
      lookupStr (buildPreviewRowAux vs idx hs acc) k = none := by
  intro hs
  induction hs with
  | nil => intro idx acc _ hacc; exact hacc
  | cons hcol t ih =>
    intro idx acc hk hacc
    have hne : k ≠ hcol := fun he => hk (he ▸ List.mem_cons_self _ _)
    exact ih (idx + 1) _ (fun hm => hk (List.mem_cons_of_mem _ hm))
      ((lookupStr_jsUpdate_ne hcol (vs.getD idx "") k acc hne).trans hacc)

theorem rowValidationErrors_of_empty_nombre (d : CsvRowData) (h : d.nombre = "") :
    (rowValidationErrors d).isEmpty = false := by
  unfold rowValidationErrors
  rw [h]
  simp

theorem classifyRowsAux_valid_nil :
    ∀ (rows : List (List (String × String))) (k : Nat),
      (∀ r ∈ rows, (rowValidationErrors (cleanPreviewRow r)).isEmpty = false) →
      (classifyRowsAux k rows).1 = [] := by
  intro rows
  induction rows with
  | nil => intro k _; rfl
  | cons r t ih =>
    intro k h
    simp only [classifyRowsAux, h r (List.mem_cons_self _ _), Bool.false_eq_true, if_false]
    exact ih (k + 1) (fun x hx => h x (List.mem_cons_of_mem _ hx))

theorem previewValid_nil_of_no_nombre (content : String)
    (hmiss : "nombre" ∉ previewHeaders content) :
    previewValid content = [] := by
  unfold previewValid
  apply classifyRowsAux_valid_nil
  intro r hr
  obtain ⟨line, _, hline⟩ := List.mem_filterMap.mp hr
  apply rowValidationErrors_of_empty_nombre
  split at hline
  · exact absurd hline (by simp)
  · injection hline with hline
    subst hline
    unfold cleanPreviewRow
    dsimp only
    rw [show lookupD (buildPreviewRowAux
        ((jsSplit ',' (jsTrim line)).map (fun v => removeQuotes (jsTrim v))) 0
        (previewHeaders content) []) "nombre" = "" from ?_]
    · rfl
    · unfold lookupD
      rw [buildPreviewRowAux_lookup_none
        ((jsSplit ',' (jsTrim line)).map (fun v => removeQuotes (jsTrim v))) "nombre"
        (previewHeaders content) 0 [] hmiss rfl]
      rfl

theorem rowValidationErrors_of_empty_apellido (d : CsvRowData) (h : d.apellido = "") :
    (rowValidationErrors d).isEmpty = false := by
  unfold rowValidationErrors
  rw [h]
  simp

theorem previewValid_nil_of_no_apellido (content : String)
    (hmiss : "apellido" ∉ previewHeaders content) :
    previewValid content = [] := by
  unfold previewValid
  apply classifyRowsAux_valid_nil
  intro r hr
  obtain ⟨line, _, hline⟩ := List.mem_filterMap.mp hr
  apply rowValidationErrors_of_empty_apellido
  split at hline
  · exact absurd hline (by simp)
  · injection hline with hline
    subst hline
    unfold cleanPreviewRow
    dsimp only
    rw [show lookupD (buildPreviewRowAux
        ((jsSplit ',' (jsTrim line)).map (fun v => removeQuotes (jsTrim v))) 0
        (previewHeaders content) []) "apellido" = "" from ?_]
    · rfl
    · unfold lookupD
      rw [buildPreviewRowAux_lookup_none
        ((jsSplit ',' (jsTrim line)).map (fun v => removeQuotes (jsTrim v))) "apellido"
        (previewHeaders content) 0 [] hmiss rfl]
      rfl

theorem previewValid_nil_of_missing (content : String)
    (hmiss : "nombre" ∉ previewHeaders content ∨ "apellido" ∉ previewHeaders content) :
    previewValid content = [] := by
  rcases hmiss with hm | hm
  · exact previewValid_nil_of_no_nombre content hm
  · exact previewValid_nil_of_no_apellido content hm

/-- C5 (amended): `startImport` fails fast — on empty (all-whitespace) content
with the empty-file error, and on a non-empty file whose lower-cased header
lacks `nombre` or `apellido` with the missing-columns error — creating no
batch and no log entries.  `previewImport`, however, does not fail on a
missing mandatory header: it returns a report in which no row is valid (each
data row is classified invalid for the missing required field), and on empty
content it returns the empty report. -/
theorem c5_fail_fast (content filename : String) (store pre : List Contact)
    (fault : Nat → Option String) (bid now : Nat) :
    (emptyCsv content → startImport content filename pre fault bid now =
      .error "CSV file is empty") ∧
    (¬ emptyCsv content →
      ("nombre" ∉ headerOf content ∨ "apellido" ∉ headerOf content) →
      startImport content filename pre fault bid now =
        .error "CSV must contain nombre and apellido columns") ∧
    (("nombre" ∉ previewHeaders content ∨ "apellido" ∉ previewHeaders content) →
      (previewImport content store).validRows = []) ∧
    (emptyCsv content → previewImport content store = ⟨0, [], [], [], []⟩) := by
  refine ⟨?_, ?_, ?_, ?_⟩
  · intro hempty
    unfold startImport
    rw [if_pos hempty]
  · intro hne hmiss
    have hall : ¬ (requiredColumns.all (fun col => (headerOf content).contains col) = true) := by
      simp only [requiredColumns, List.all_cons, List.all_nil, Bool.and_true,
        Bool.and_eq_true]
      intro hcontra
      rcases hmiss with hm | hm
      · exact hm (List.elem_iff.mp hcontra.1)
      · exact hm (List.elem_iff.mp hcontra.2)
    unfold startImport
    rw [if_neg hne, if_neg hall]
  · intro hmiss
    unfold previewImport
    split
    · rfl
    · dsimp only
      exact previewValid_nil_of_missing content hmiss
  · intro hempty
    have hd : ((jsSplit '\n' (jsTrim content)).drop 1) = [] := by
      apply List.drop_eq_nil_of_le
      rcases hempty with h0 | ⟨h1, _⟩ <;> omega
    have hnil : parseCsv content = [] := by
      unfold parseCsv
      rw [hd]
      rfl
    unfold previewImport
    rw [if_pos (by rw [hnil]; rfl)]

/-- Witness for C5 at concrete inputs: whitespace-only content (for both the
ingestion error and the empty preview report), a header lacking `nombre`, and
a header lacking `apellido`. -/
theorem c5_fail_fast_witness :
    startImport "  " "f.csv" [] noFault 1 0 = .error "CSV file is empty" ∧
    startImport csvNoNombre "g.csv" [] noFault 1 0 =
      .error "CSV must contain nombre and apellido columns" ∧
    (previewImport csvNoApellido []).validRows = [] ∧
    previewImport "  " [] = ⟨0, [], [], [], []⟩ :=
  ⟨(c5_fail_fast "  " "f.csv" [] [] noFault 1 0).1 (by decide),
   (c5_fail_fast csvNoNombre "g.csv" [] [] noFault 1 0).2.1 (by decide)
     (Or.inl (by decide)),
   (c5_fail_fast csvNoApellido "h.csv" [] [] noFault 1 0).2.2.1 (Or.inr (by decide)),
   (c5_fail_fast "  " "f.csv" [] [] noFault 1 0).2.2.2 (by decide)⟩

/-! ## Branch analysis of one row -/

theorem toProcessedData_email_truthy (r : List (String × String)) (s : String)
    (h : (toProcessedData r).email = .str s) :
    (toProcessedData r).email.truthy = true ∧ s ≠ "" := by
  unfold toProcessedData at h ⊢
  dsimp only at h ⊢
  cases hl : lookupStr r "email" with
  | none => rw [hl] at h; simp at h
  | some v =>
    rw [hl] at h
    dsimp only at h ⊢
    by_cases hv : v = ""
    · rw [if_pos hv] at h; simp at h
    · rw [if_neg hv] at h ⊢
      injection h with h
      subst h
      refine ⟨?_, hv⟩
      obtain ⟨l⟩ := v
      cases l with
      | nil => exact absurd rfl hv
      | cons c cs => rfl

theorem toProcessedData_telefono_truthy (r : List (String × String)) (s : String)
    (h : (toProcessedData r).telefono = .str s) :
    (toProcessedData r).telefono.truthy = true ∧ s ≠ "" := by
  unfold toProcessedData at h ⊢
  dsimp only at h ⊢
  cases hl : lookupStr r "telefono" with
  | none => rw [hl] at h; simp at h
  | some v =>
    rw [hl] at h
    dsimp only at h ⊢
    by_cases hv : v = ""
    · rw [if_pos hv] at h; simp at h
    · rw [if_neg hv] at h ⊢
      injection h with h
      subst h
      refine ⟨?_, hv⟩
      obtain ⟨l⟩ := v
      cases l with
      | nil => exact absurd rfl hv
      | cons c cs => rfl

theorem processRow_branches (bid : Nat) (hdr : List String) (fault : Nat → Option String)
    (st : RunState) (i : Nat) (row : String) :
    (∃ msg, fault i = some msg ∧
      processRow bid hdr fault st i row =
        { st with
          failed := st.failed + 1
          errorLog := st.errorLog ++ ["Row " ++ toString i ++ ": " ++ msg]
          logs := st.logs ++ [⟨bid, i, .error, some msg, "\x7b\x7d"⟩] }) ∨
    (fault i = none ∧
      (rowValidationErrors (processedOf hdr row)).isEmpty = false ∧
      processRow bid hdr fault st i row =
        { st with
          failed := st.failed + 1
          logs := st.logs ++ [⟨bid, i, .error,
            some ("Validation failed: " ++ joinWith ", "
              ((rowValidationErrors (processedOf hdr row)).map (fun e => e.2))),
            jsonRecord (parseStartRow hdr row)⟩] }) ∨
    (fault i = none ∧
      (rowValidationErrors (processedOf hdr row)).isEmpty = true ∧
      (existingFor (processedOf hdr row) st.contacts).isEmpty = true ∧
      processRow bid hdr fault st i row =
        { st with
          contacts := st.contacts ++
            [⟨(processedOf hdr row).nombre, (processedOf hdr row).apellido,
              (processedOf hdr row).email.toDb, (processedOf hdr row).telefono.toDb⟩]
          succ := st.succ + 1
          logs := st.logs ++ [⟨bid, i, .success, none, jsonRecord (parseStartRow hdr row)⟩] }) ∨
    (fault i = none ∧
      (rowValidationErrors (processedOf hdr row)).isEmpty = true ∧
      (existingFor (processedOf hdr row) st.contacts).isEmpty = false ∧
      processRow bid hdr fault st i row =
        { st with
          failed := st.failed + 1
          logs := st.logs ++ [⟨bid, i, .error,
            some ("Duplicate " ++ dupFieldOf (processedOf hdr row) st.contacts ++ ": " ++
              dupValueOf (processedOf hdr row) st.contacts),
            jsonRecord (parseStartRow hdr row)⟩] }) := by
  unfold processRow
  cases hf : fault i with
  | some msg => exact Or.inl ⟨msg, rfl, rfl⟩
  | none =>
    dsimp only
    cases herr : (rowValidationErrors (processedOf hdr row)).isEmpty with
    | false =>
      refine Or.inr (Or.inl ⟨rfl, rfl, ?_⟩)
      rw [if_neg (by exact Bool.false_ne_true)]
    | true =>
      rw [if_pos (by exact rfl)]
      cases hex : (existingFor (processedOf hdr row) st.contacts).isEmpty with
      | true =>
        refine Or.inr (Or.inr (Or.inl ⟨rfl, rfl, rfl, ?_⟩))
        rw [if_pos (by exact rfl)]
      | false =>
        refine Or.inr (Or.inr (Or.inr ⟨rfl, rfl, rfl, ?_⟩))
        rw [if_neg (by exact Bool.false_ne_true)]

theorem processRow_dup_of_match (bid : Nat) (hdr : List String) (fault : Nat → Option String)
    (st : RunState) (i : Nat) (row : String)
    (hf : fault i = none)
    (hv : (rowValidationErrors (processedOf hdr row)).isEmpty = true)
    (c : Contact) (hc : c ∈ st.contacts)
    (hm : contactMatches (processedOf hdr row) c = true) :
    (existingFor (processedOf hdr row) st.contacts).isEmpty = false ∧
    c ∈ existingFor (processedOf hdr row) st.contacts ∧
    processRow bid hdr fault st i row =
      { st with
        failed := st.failed + 1
        logs := st.logs ++ [⟨bid, i, .error,
          some ("Duplicate " ++ dupFieldOf (processedOf hdr row) st.contacts ++ ": " ++
            dupValueOf (processedOf hdr row) st.contacts),
          jsonRecord (parseStartRow hdr row)⟩] } := by
  have htr : ((processedOf hdr row).email.truthy || (processedOf hdr row).telefono.truthy) = true := by
    unfold contactMatches at hm
    rcases Bool.or_eq_true_iff.mp hm with h | h
    · exact Bool.or_eq_true_iff.mpr (Or.inl (Bool.and_eq_true_iff.mp h).1)
    · exact Bool.or_eq_true_iff.mpr (Or.inr (Bool.and_eq_true_iff.mp h).1)
  have hcin : c ∈ existingFor (processedOf hdr row) st.contacts := by
    unfold existingFor
    rw [if_pos htr]
    exact List.mem_filter.mpr ⟨hc, hm⟩
  have hne : (existingFor (processedOf hdr row) st.contacts).isEmpty = false := by
    cases hE : (existingFor (processedOf hdr row) st.contacts).isEmpty with
    | false => rfl
    | true =>
      rw [List.isEmpty_iff] at hE
      rw [hE] at hcin
      exact absurd hcin (List.not_mem_nil c)
  refine ⟨hne, hcin, ?_⟩
  rcases processRow_branches bid hdr fault st i row with
    ⟨msg, hmsg, _⟩ | ⟨_, hval, _⟩ | ⟨_, _, hex, _⟩ | ⟨_, _, _, heq⟩
  · rw [hf] at hmsg; exact absurd hmsg (by simp)
  · rw [hv] at hval; exact absurd hval (by simp)
  · rw [hne] at hex; exact absurd hex (by simp)
  · exact heq

theorem runOf_decompose_at (content : String) (pre : List Contact)
    (fault : Nat → Option String) (bid i : Nat)
    (hi1 : 1 ≤ i) (hi : i ≤ (dataRowsOf content).length) :
    runOf content pre fault bid =
      runRows bid (headerOf content) fault
        (processRow bid (headerOf content) fault (stBefore content pre fault bid i) i
          ((dataRowsOf content).getD (i - 1) ""))
        (i + 1) ((dataRowsOf content).drop i) := by
  have hdec := runRows_decompose bid (headerOf content) fault (dataRowsOf content)
    ⟨pre, [], 0, 0, []⟩ 1 (i - 1) (by omega)
  have h1 : 1 + (i - 1) = i := by omega
  have h2 : i - 1 + 1 = i := by omega
  rw [h1, h2] at hdec
  exact hdec

theorem run_success_step (content : String) (pre : List Contact)
    (fault : Nat → Option String) (bid i : Nat)
    (hi1 : 1 ≤ i) (hi : i ≤ (dataRowsOf content).length)
    (hsucc : ∃ en ∈ (runOf content pre fault bid).logs,
      en.row_number = i ∧ en.status = .success) :
    processRow bid (headerOf content) fault (stBefore content pre fault bid i) i
      ((dataRowsOf content).getD (i - 1) "") =
      { stBefore content pre fault bid i with
        contacts := (stBefore content pre fault bid i).contacts ++ [insertedContact content i]
        succ := (stBefore content pre fault bid i).succ + 1
        logs := (stBefore content pre fault bid i).logs ++
          [⟨bid, i, .success, none,
            jsonRecord (parseStartRow (headerOf content) ((dataRowsOf content).getD (i - 1) ""))⟩] } := by
  obtain ⟨en, hen, hrn, hstat⟩ := hsucc
  rw [runOf_decompose_at content pre fault bid i hi1 hi] at hen
  obtain ⟨esq, hlogq, hmapq, _, _, _⟩ := runRows_shape bid (headerOf content) fault
    ((dataRowsOf content).drop i)
    (processRow bid (headerOf content) fault (stBefore content pre fault bid i) i
      ((dataRowsOf content).getD (i - 1) "")) (i + 1)
  rw [hlogq] at hen
  obtain ⟨ei, _, hrni, hlogi, _, _⟩ := processRow_shape bid (headerOf content) fault
    (stBefore content pre fault bid i) i ((dataRowsOf content).getD (i - 1) "")
  obtain ⟨esp, hlogp, hmapp, _, _, _⟩ := runRows_shape bid (headerOf content) fault
    ((dataRowsOf content).take (i - 1)) ⟨pre, [], 0, 0, []⟩ 1
  have hstp : (stBefore content pre fault bid i).logs = esp := by
    rw [stBefore, hlogp]
    rfl
  have hein : en = ei := by
    rcases List.mem_append.mp hen with hmem | hmem
    · rw [hlogi, hstp] at hmem
      rcases List.mem_append.mp hmem with hmem2 | hmem2
      · exfalso
        have hrmem : en.row_number ∈ esp.map (fun e => e.row_number) :=
          List.mem_map_of_mem _ hmem2
        rw [hmapp] at hrmem
        have := List.mem_range'_1.mp hrmem
        have hlt : (List.take (i - 1) (dataRowsOf content)).length = i - 1 := by
          rw [List.length_take]
          omega
        omega
      · simpa using hmem2
    · exfalso
      have hrmem : en.row_number ∈ esq.map (fun e => e.row_number) :=
        List.mem_map_of_mem _ hmem
      rw [hmapq] at hrmem
      have := List.mem_range'_1.mp hrmem
      omega
  subst hein
  rcases processRow_branches bid (headerOf content) fault (stBefore content pre fault bid i)
    i ((dataRowsOf content).getD (i - 1) "") with
    ⟨msg, _, heq⟩ | ⟨_, _, heq⟩ | ⟨_, _, _, heq⟩ | ⟨_, _, _, heq⟩
  · exfalso
    rw [heq] at hlogi
    dsimp only at hlogi
    have hl := List.append_cancel_left hlogi
    injection hl with hl
    rw [← hl] at hstat
    simp at hstat
  · exfalso
    rw [heq] at hlogi
    dsimp only at hlogi
    have hl := List.append_cancel_left hlogi
    injection hl with hl
    rw [← hl] at hstat
    simp at hstat
  · rw [heq]
    rfl
  · exfalso
    rw [heq] at hlogi
    dsimp only at hlogi
    have hl := List.append_cancel_left hlogi
    injection hl with hl
    rw [← hl] at hstat
    simp at hstat

/-! ## Email-count invariants -/

theorem countEmail_append (e : String) (l t : List Contact) :
    countEmail e (l ++ t) = countEmail e l + countEmail e t :=
  List.countP_append _ _ _

theorem toDb_eq_some (x : JsStr) (v : String) (h : x.toDb = some v) : x = .str v := by
  cases x with
  | undef => exact absurd h (by simp [JsStr.toDb])
  | nullv => exact absurd h (by simp [JsStr.toDb])
  | str s =>
    unfold JsStr.toDb at h
    injection h with h
    rw [h]

theorem processRow_countEmail_le_one (bid : Nat) (hdr : List String)
    (fault : Nat → Option String) (st : RunState) (i : Nat) (row : String) (e : String)
    (h : countEmail e st.contacts ≤ 1) :
    countEmail e (processRow bid hdr fault st i row).contacts ≤ 1 := by
  rcases processRow_branches bid hdr fault st i row with
    ⟨_, _, heq⟩ | ⟨_, _, heq⟩ | ⟨_, _, hex, heq⟩ | ⟨_, _, _, heq⟩
  · rw [heq]; exact h
  · rw [heq]; exact h
  · rw [heq]
    dsimp only
    rw [countEmail_append]
    by_cases hce : ((processedOf hdr row).email.toDb = some e)
    · have he : (processedOf hdr row).email = .str e := toDb_eq_some _ _ hce
      have htr : (processedOf hdr row).email.truthy = true :=
        (toProcessedData_email_truthy (parseStartRow hdr row) e he).1
      have hzero : countEmail e st.contacts = 0 := by
        rw [countEmail, List.countP_eq_zero]
        intro c hc hmatch
        have hfil : st.contacts.filter (contactMatches (processedOf hdr row)) = [] := by
          have := List.isEmpty_iff.mp hex
          unfold existingFor at this
          rw [if_pos (by rw [htr]; rfl)] at this
          exact this
        have hcm : contactMatches (processedOf hdr row) c = true := by
          unfold contactMatches
          apply Bool.or_eq_true_iff.mpr
          left
          apply Bool.and_eq_true_iff.mpr
          refine ⟨htr, ?_⟩
          rw [hce]
          exact hmatch
        have : c ∈ st.contacts.filter (contactMatches (processedOf hdr row)) :=
          List.mem_filter.mpr ⟨hc, hcm⟩
        rw [hfil] at this
        exact absurd this (List.not_mem_nil c)
      rw [hzero]
      have : countEmail e [⟨(processedOf hdr row).nombre, (processedOf hdr row).apellido,
          (processedOf hdr row).email.toDb, (processedOf hdr row).telefono.toDb⟩] ≤ 1 := by
        unfold countEmail
        rw [List.countP_cons]
        split <;> simp
      omega
    · have : countEmail e [⟨(processedOf hdr row).nombre, (processedOf hdr row).apellido,
          (processedOf hdr row).email.toDb, (processedOf hdr row).telefono.toDb⟩] = 0 := by
        unfold countEmail
        rw [List.countP_cons]
        have : ((⟨(processedOf hdr row).nombre, (processedOf hdr row).apellido,
            (processedOf hdr row).email.toDb, (processedOf hdr row).telefono.toDb⟩ :
              Contact).email == some e) = false := by
          apply beq_eq_false_iff_ne.mpr
          exact hce
        rw [this]
        rfl
      omega
  · rw [heq]; exact h

theorem runRows_countEmail_le_one (bid : Nat) (hdr : List String)
    (fault : Nat → Option String) :
    ∀ (rows : List String) (st : RunState) (i : Nat) (e : String),
      countEmail e st.contacts ≤ 1 →
      countEmail e (runRows bid hdr fault st i rows).contacts ≤ 1 := by
  intro rows
  induction rows with
  | nil => intro st i e h; exact h
  | cons row rest ih =>
    intro st i e h
    exact ih _ (i + 1) e (processRow_countEmail_le_one bid hdr fault st i row e h)

theorem countEmail_le_runRows (bid : Nat) (hdr : List String)
    (fault : Nat → Option String) (rows : List String) (st : RunState) (i : Nat)
    (e : String) :
    countEmail e st.contacts ≤ countEmail e (runRows bid hdr fault st i rows).contacts := by
  obtain ⟨es, _, _, _, _, t, hct⟩ := runRows_shape bid hdr fault rows st i
  rw [hct, countEmail_append]
  omega

/-! ## The first occurrence wins; later carriers of the value fail -/

theorem inserted_mem_stBefore (content : String) (pre : List Contact)
    (fault : Nat → Option String) (bid i j : Nat)
    (hij : i < j) (hi1 : 1 ≤ i) (hjlen : j ≤ (dataRowsOf content).length)
    (hsucc : ∃ en ∈ (runOf content pre fault bid).logs,
      en.row_number = i ∧ en.status = .success) :
    insertedContact content i ∈ (stBefore content pre fault bid j).contacts := by
  have hi : i ≤ (dataRowsOf content).length := by omega
  have heqi := run_success_step content pre fault bid i hi1 hi hsucc
  have hlen' : (List.take (j - 1) (dataRowsOf content)).length = j - 1 := by
    rw [List.length_take]
    omega
  have hk : i - 1 < (List.take (j - 1) (dataRowsOf content)).length := by omega
  have hdec := runRows_decompose bid (headerOf content) fault
    (List.take (j - 1) (dataRowsOf content)) ⟨pre, [], 0, 0, []⟩ 1 (i - 1) hk
  have h1 : 1 + (i - 1) = i := by omega
  rw [h1] at hdec
  have htt : List.take (i - 1) (List.take (j - 1) (dataRowsOf content)) =
      List.take (i - 1) (dataRowsOf content) := by
    rw [List.take_take]
    congr 1
    omega
  have hgd : (List.take (j - 1) (dataRowsOf content)).getD (i - 1) "" =
      (dataRowsOf content).getD (i - 1) "" := by
    rw [List.getD_eq_getElem _ _ hk, List.getD_eq_getElem _ _ (by omega :
      i - 1 < (dataRowsOf content).length)]
    exact List.getElem_take _
  rw [htt, hgd] at hdec
  have hstj : stBefore content pre fault bid j =
      runRows bid (headerOf content) fault
        (processRow bid (headerOf content) fault (stBefore content pre fault bid i) i
          ((dataRowsOf content).getD (i - 1) ""))
        (i + 1) (List.drop (i - 1 + 1) (List.take (j - 1) (dataRowsOf content))) := by
    rw [stBefore, hdec]
    rfl
  rw [hstj, heqi]
  obtain ⟨_, _, _, _, _, t, hct⟩ := runRows_shape bid (headerOf content) fault
    (List.drop (i - 1 + 1) (List.take (j - 1) (dataRowsOf content)))
    ({ stBefore content pre fault bid i with
        contacts := (stBefore content pre fault bid i).contacts ++ [insertedContact content i]
        succ := (stBefore content pre fault bid i).succ + 1
        logs := (stBefore content pre fault bid i).logs ++
          [⟨bid, i, .success, none,
            jsonRecord (parseStartRow (headerOf content) ((dataRowsOf content).getD (i - 1) ""))⟩] })
    (i + 1)
  rw [hct]
  dsimp only
  exact List.mem_append_left _ (List.mem_append_right _ (List.mem_singleton_self _))

theorem run_second_dup (content : String) (pre : List Contact)
    (fault : Nat → Option String) (bid i j : Nat) (v : String)
    (hij : i < j) (hi1 : 1 ≤ i) (hjlen : j ≤ (dataRowsOf content).length)
    (hfj : fault j = none)
    (hsucc : ∃ en ∈ (runOf content pre fault bid).logs,
      en.row_number = i ∧ en.status = .success)
    (hvj : (rowValidationErrors (processedOf (headerOf content)
      ((dataRowsOf content).getD (j - 1) ""))).isEmpty = true)
    (hshare :
      ((processedOf (headerOf content) ((dataRowsOf content).getD (i - 1) "")).email = .str v ∧
        (processedOf (headerOf content) ((dataRowsOf content).getD (j - 1) "")).email = .str v) ∨
      ((processedOf (headerOf content) ((dataRowsOf content).getD (i - 1) "")).telefono = .str v ∧
        (processedOf (headerOf content) ((dataRowsOf content).getD (j - 1) "")).telefono = .str v)) :
    (⟨bid, j, .error,
      some ("Duplicate " ++
        dupFieldOf (processedOf (headerOf content) ((dataRowsOf content).getD (j - 1) ""))
          (stBefore content pre fault bid j).contacts ++ ": " ++
        dupValueOf (processedOf (headerOf content) ((dataRowsOf content).getD (j - 1) ""))
          (stBefore content pre fault bid j).contacts),
      jsonRecord (parseStartRow (headerOf content) ((dataRowsOf content).getD (j - 1) ""))⟩ :
        LogEntry) ∈ (runOf content pre fault bid).logs ∧
    (dupFieldOf (processedOf (headerOf content) ((dataRowsOf content).getD (j - 1) ""))
        (stBefore content pre fault bid j).contacts = "email" ∨
      dupFieldOf (processedOf (headerOf content) ((dataRowsOf content).getD (j - 1) ""))
        (stBefore content pre fault bid j).contacts = "telefono") ∧
    (((processedOf (headerOf content) ((dataRowsOf content).getD (i - 1) "")).email = .str v ∧
        (processedOf (headerOf content) ((dataRowsOf content).getD (j - 1) "")).email = .str v) →
      dupFieldOf (processedOf (headerOf content) ((dataRowsOf content).getD (j - 1) ""))
          (stBefore content pre fault bid j).contacts = "email" ∧
        dupValueOf (processedOf (headerOf content) ((dataRowsOf content).getD (j - 1) ""))
          (stBefore content pre fault bid j).contacts = v) := by
  have hc0 := inserted_mem_stBefore content pre fault bid i j hij hi1 hjlen hsucc
  have hm : contactMatches
      (processedOf (headerOf content) ((dataRowsOf content).getD (j - 1) ""))
      (insertedContact content i) = true := by
    unfold contactMatches insertedContact
    rcases hshare with ⟨hei, hej⟩ | ⟨hti, htj⟩
    · apply Bool.or_eq_true_iff.mpr
      left
      apply Bool.and_eq_true_iff.mpr
      refine ⟨(toProcessedData_email_truthy _ v hej).1, ?_⟩
      dsimp only
      rw [hei, hej]
      exact beq_self_eq_true _
    · apply Bool.or_eq_true_iff.mpr
      right
      apply Bool.and_eq_true_iff.mpr
      refine ⟨(toProcessedData_telefono_truthy _ v htj).1, ?_⟩
      dsimp only
      rw [hti, htj]
      exact beq_self_eq_true _
  obtain ⟨hexf, hc0in, heqj⟩ := processRow_dup_of_match bid (headerOf content) fault
    (stBefore content pre fault bid j) j ((dataRowsOf content).getD (j - 1) "")
    hfj hvj (insertedContact content i) hc0 hm
  have hj1 : 1 ≤ j := by omega
  refine ⟨?_, ?_, ?_⟩
  · rw [runOf_decompose_at content pre fault bid j hj1 hjlen]
    obtain ⟨es, hlogs, _, _, _, _⟩ := runRows_shape bid (headerOf content) fault
      ((dataRowsOf content).drop j)
      (processRow bid (headerOf content) fault (stBefore content pre fault bid j) j
        ((dataRowsOf content).getD (j - 1) "")) (j + 1)
    rw [hlogs, heqj]
    dsimp only
    exact List.mem_append_left _ (List.mem_append_right _ (List.mem_singleton_self _))
  · unfold dupFieldOf
    split
    · left; rfl
    · right; rfl
  · rintro ⟨hei, hej⟩
    have hfld : dupFieldOf
        (processedOf (headerOf content) ((dataRowsOf content).getD (j - 1) ""))
        (stBefore content pre fault bid j).contacts = "email" := by
      unfold dupFieldOf
      rw [if_pos ?_]
      apply List.any_eq_true.mpr
      refine ⟨insertedContact content i, hc0in, ?_⟩
      unfold insertedContact
      dsimp only
      rw [hei, hej]
      exact beq_self_eq_true _
    refine ⟨hfld, ?_⟩
    unfold dupValueOf
    rw [hfld, if_pos rfl, hej]
    rfl

/-! ## C1 — in-order processing and first-occurrence-wins duplicates -/

/-- C1 counterexample: in a file where the first carrier of the shared email
fails validation, its contact is not inserted and the later carrier succeeds
— so it is not true that the first row carrying a value always wins and every
later carrier fails. -/
theorem c1_counterexample :
    (startImport csvInvalidFirst "f.csv" [] noFault 1 0).map
      (fun r => (r.logs.map (fun en => (en.row_number, en.status)), r.contacts.length)) =
      .ok ([(1, .error), (2, .success)], 1) := by
  decide

/-- C1 (amended): rows are processed strictly in ascending row-number order —
the run writes exactly one log entry per data row, with row numbers 1..N in
order — and the per-row duplicate check sees every contact inserted earlier
in the same run (also inside the current chunk's transaction): if rows
i < j carry an identical email or identical phone value, row j passes
validation, and row i was actually inserted (it has a success log entry),
then row j fails with a duplicate error log entry; and when the shared value
is an email carried by no pre-run contact, the run ends with exactly one
stored contact carrying it.  (As stated the claim fails when the first
carrier row is itself rejected: nothing is inserted for it and a later
carrier succeeds.) -/
theorem c1_first_wins (content filename : String) (pre : List Contact)
    (fault : Nat → Option String) (bid now : Nat) (res : ImportResult)
    (i j : Nat) (v : String)
    (h : startImport content filename pre fault bid now = .ok res)
    (hij : i < j) (hi1 : 1 ≤ i) (hjlen : j ≤ (dataRowsOf content).length)
    (hfj : fault j = none)
    (hsucc : ∃ en ∈ res.logs, en.row_number = i ∧ en.status = .success)
    (hvj : (rowValidationErrors (processedOf (headerOf content)
      ((dataRowsOf content).getD (j - 1) ""))).isEmpty = true)
    (hshare :
      ((processedOf (headerOf content) ((dataRowsOf content).getD (i - 1) "")).email = .str v ∧
        (processedOf (headerOf content) ((dataRowsOf content).getD (j - 1) "")).email = .str v) ∨
      ((processedOf (headerOf content) ((dataRowsOf content).getD (i - 1) "")).telefono = .str v ∧
        (processedOf (headerOf content) ((dataRowsOf content).getD (j - 1) "")).telefono = .str v)) :
    res.logs.map (fun en => en.row_number) = List.range' 1 (dataRowsOf content).length ∧
    (∃ en ∈ res.logs, en.row_number = j ∧ en.status = .error ∧
      ∃ fld val, (fld = "email" ∨ fld = "telefono") ∧
        en.error_message = some ("Duplicate " ++ fld ++ ": " ++ val)) ∧
    (((processedOf (headerOf content) ((dataRowsOf content).getD (i - 1) "")).email = .str v ∧
        (processedOf (headerOf content) ((dataRowsOf content).getD (j - 1) "")).email = .str v) →
      countEmail v pre = 0 → countEmail v res.contacts = 1) := by
  have hres := startImport_ok h
  subst hres
  dsimp only at hsucc ⊢
  refine ⟨?_, ?_, ?_⟩
  · obtain ⟨es, hlogs, hmap, _, _, _⟩ := runRows_shape bid (headerOf content) fault
      (dataRowsOf content) ⟨pre, [], 0, 0, []⟩ 1
    show (runRows bid (headerOf content) fault ⟨pre, [], 0, 0, []⟩ 1
      (dataRowsOf content)).logs.map (fun en => en.row_number) = _
    rw [hlogs]
    simpa using hmap
  · obtain ⟨hmem, _, _⟩ := run_second_dup content pre fault bid i j v hij hi1 hjlen
      hfj hsucc hvj hshare
    exact ⟨_, hmem, rfl, rfl, _, _, (run_second_dup content pre fault bid i j v hij hi1
      hjlen hfj hsucc hvj hshare).2.1, rfl⟩
  · rintro ⟨hei, hej⟩ hpre
    have hle : countEmail v (runOf content pre fault bid).contacts ≤ 1 := by
      apply runRows_countEmail_le_one
      show countEmail v pre ≤ 1
      omega
    have hge : 1 ≤ countEmail v (runOf content pre fault bid).contacts := by
      have hi : i ≤ (dataRowsOf content).length := by omega
      have heqi := run_success_step content pre fault bid i hi1 hi hsucc
      rw [runOf_decompose_at content pre fault bid i hi1 hi]
      have hcnt : 1 ≤ countEmail v (processRow bid (headerOf content) fault
          (stBefore content pre fault bid i) i
          ((dataRowsOf content).getD (i - 1) "")).contacts := by
        rw [heqi]
        dsimp only
        rw [countEmail_append]
        have h1 : countEmail v [insertedContact content i] = 1 := by
          unfold countEmail
          rw [List.countP_cons]
          have : ((insertedContact content i).email == some v) = true := by
            unfold insertedContact
            dsimp only
            rw [hei]
            exact beq_self_eq_true _
          rw [this]
          rfl
        omega
      calc 1 ≤ countEmail v (processRow bid (headerOf content) fault
            (stBefore content pre fault bid i) i
            ((dataRowsOf content).getD (i - 1) "")).contacts := hcnt
        _ ≤ _ := countEmail_le_runRows bid (headerOf content) fault _ _ _ _
    omega

/-- Witness for C1 at a two-row file sharing one email exactly. -/
theorem c1_first_wins_witness :
    (mkImportResult csvExactDup "f.csv" [] noFault 1 0).logs.map (fun en => en.row_number) =
      List.range' 1 (dataRowsOf csvExactDup).length ∧
    (∃ en ∈ (mkImportResult csvExactDup "f.csv" [] noFault 1 0).logs,
      en.row_number = 2 ∧ en.status = .error ∧
      ∃ fld val, (fld = "email" ∨ fld = "telefono") ∧
        en.error_message = some ("Duplicate " ++ fld ++ ": " ++ val)) ∧
    (((processedOf (headerOf csvExactDup) ((dataRowsOf csvExactDup).getD 0 "")).email =
          .str "a@b.com" ∧
        (processedOf (headerOf csvExactDup) ((dataRowsOf csvExactDup).getD 1 "")).email =
          .str "a@b.com") →
      countEmail "a@b.com" [] = 0 →
      countEmail "a@b.com" (mkImportResult csvExactDup "f.csv" [] noFault 1 0).contacts = 1) :=
  c1_first_wins csvExactDup "f.csv" [] noFault 1 0 _ 1 2 "a@b.com" (by decide) (by decide)
    (by decide) (by decide) (by decide) (by decide) (by decide) (Or.inl ⟨by decide, by decide⟩)

/-! ## C6 — duplicate-group machinery of the preview -/

theorem one_lt_length_of_two_mem {α : Type} {l : List α} {a b : α}
    (ha : a ∈ l) (hb : b ∈ l) (hne : a ≠ b) : 1 < l.length := by
  cases l with
  | nil => exact absurd ha (List.not_mem_nil a)
  | cons x t =>
    cases t with
    | nil =>
      rw [List.mem_singleton] at ha hb
      exact absurd (ha.trans hb.symm) hne
    | cons y u =>
      simp only [List.length_cons]
      omega

theorem addToGroups_keys_mem (key : String) (rn : Nat) :
    ∀ (G : List DupGroup) (k : String),
      k ∈ (addToGroups key rn G).map DupGroup.key ↔
        (k ∈ G.map DupGroup.key ∨ k = key) := by
  intro G
  induction G with
  | nil => intro k; simp [addToGroups]
  | cons g t ih =>
    intro k
    unfold addToGroups
    by_cases hg : g.key = key
    · rw [if_pos hg]
      simp only [List.map_cons, List.mem_cons]
      rw [hg]
      tauto
    · rw [if_neg hg]
      simp only [List.map_cons, List.mem_cons, ih]
      tauto

theorem addToGroups_keys_nodup (key : String) (rn : Nat) :
    ∀ (G : List DupGroup), (G.map DupGroup.key).Nodup →
      ((addToGroups key rn G).map DupGroup.key).Nodup := by
  intro G
  induction G with
  | nil => intro _; simp [addToGroups]
  | cons g t ih =>
    intro hnd
    rw [List.map_cons, List.nodup_cons] at hnd
    unfold addToGroups
    by_cases hg : g.key = key
    · rw [if_pos hg]
      rw [List.map_cons, List.nodup_cons]
      exact ⟨hnd.1, hnd.2⟩
    · rw [if_neg hg]
      rw [List.map_cons, List.nodup_cons]
      refine ⟨?_, ih hnd.2⟩
      rw [addToGroups_keys_mem]
      rintro (hmem | hkey)
      · exact hnd.1 hmem
      · exact hg hkey

theorem addToGroups_inv (Q : Nat → String → Prop) (key : String) (rn : Nat)
    (hQ : Q rn key) :
    ∀ (G : List DupGroup), (∀ g ∈ G, ∀ r ∈ g.rowNumbers, Q r g.key) →
      ∀ g ∈ addToGroups key rn G, ∀ r ∈ g.rowNumbers, Q r g.key := by
  intro G
  induction G with
  | nil =>
    intro _ g hg r hr
    simp only [addToGroups, List.mem_singleton] at hg
    subst hg
    simp only [List.mem_singleton] at hr
    subst hr
    exact hQ
  | cons g0 t ih =>
    intro hinv g hg r hr
    unfold addToGroups at hg
    by_cases hk : g0.key = key
    · rw [if_pos hk] at hg
      rcases List.mem_cons.mp hg with he | ht
      · subst he
        dsimp only at hr ⊢
        rcases List.mem_append.mp hr with h1 | h2
        · exact hinv g0 (List.mem_cons_self _ _) r h1
        · have hrn : r = rn := by simpa using h2
          subst hrn
          exact hk ▸ hQ
      · exact hinv g (List.mem_cons_of_mem _ ht) r hr
    · rw [if_neg hk] at hg
      rcases List.mem_cons.mp hg with he | ht
      · subst he
        exact hinv g (List.mem_cons_self _ _) r hr
      · exact ih (fun g' hg' => hinv g' (List.mem_cons_of_mem _ hg')) g ht r hr

theorem addToGroups_mem_self (key : String) (rn : Nat) :
    ∀ (G : List DupGroup), ∃ g ∈ addToGroups key rn G, g.key = key ∧ rn ∈ g.rowNumbers := by
  intro G
  induction G with
  | nil =>
    refine ⟨⟨key, [rn]⟩, ?_, rfl, List.mem_singleton_self _⟩
    simp [addToGroups]
  | cons g0 t ih =>
    unfold addToGroups
    by_cases hk : g0.key = key
    · rw [if_pos hk]
      exact ⟨⟨g0.key, g0.rowNumbers ++ [rn]⟩, List.mem_cons_self _ _, hk,
        List.mem_append_right _ (List.mem_singleton_self _)⟩
    · rw [if_neg hk]
      obtain ⟨g, hg, hkey, hrn⟩ := ih
      exact ⟨g, List.mem_cons_of_mem _ hg, hkey, hrn⟩

theorem addToGroups_mem_mono (key : String) (rn : Nat) (k : String) (r : Nat) :
    ∀ (G : List DupGroup), (∃ g ∈ G, g.key = k ∧ r ∈ g.rowNumbers) →
      ∃ g ∈ addToGroups key rn G, g.key = k ∧ r ∈ g.rowNumbers := by
  intro G
  induction G with
  | nil =>
    rintro ⟨g, hg, _⟩
    exact absurd hg (List.not_mem_nil g)
  | cons g0 t ih =>
    rintro ⟨g, hg, hkey, hr⟩
    unfold addToGroups
    by_cases hk : g0.key = key
    · rw [if_pos hk]
      rcases List.mem_cons.mp hg with he | ht
      · subst he
        exact ⟨⟨g.key, g.rowNumbers ++ [rn]⟩, List.mem_cons_self _ _, hkey,
          List.mem_append_left _ hr⟩
      · exact ⟨g, List.mem_cons_of_mem _ ht, hkey, hr⟩
    · rw [if_neg hk]
      rcases List.mem_cons.mp hg with he | ht
      · subst he
        exact ⟨g, List.mem_cons_self _ _, hkey, hr⟩
      · obtain ⟨g', hg', hk', hr'⟩ := ih ⟨g, ht, hkey, hr⟩
        exact ⟨g', List.mem_cons_of_mem _ hg', hk', hr'⟩

theorem addDbDup_keys_mem (key : String) (rn : Nat) :
    ∀ (G : List DupGroup) (k : String),
      k ∈ (addDbDup key rn G).map DupGroup.key ↔
        (k ∈ G.map DupGroup.key ∨ k = key) := by
  intro G
  induction G with
  | nil => intro k; simp [addDbDup]
  | cons g t ih =>
    intro k
    unfold addDbDup
    by_cases hg : g.key = key
    · rw [if_pos hg]
      by_cases hc : g.rowNumbers.contains rn
      · rw [if_pos hc]
        simp only [List.map_cons, List.mem_cons]
        rw [hg]
        tauto
      · rw [if_neg hc]
        simp only [List.map_cons, List.mem_cons]
        rw [hg]
        tauto
    · rw [if_neg hg]
      simp only [List.map_cons, List.mem_cons, ih]
      tauto

theorem addDbDup_keys_nodup (key : String) (rn : Nat) :
    ∀ (G : List DupGroup), (G.map DupGroup.key).Nodup →
      ((addDbDup key rn G).map DupGroup.key).Nodup := by
  intro G
  induction G with
  | nil => intro _; simp [addDbDup]
  | cons g t ih =>
    intro hnd
    rw [List.map_cons, List.nodup_cons] at hnd
    unfold addDbDup
    by_cases hg : g.key = key
    · rw [if_pos hg]
      by_cases hc : g.rowNumbers.contains rn
      · rw [if_pos hc, List.map_cons, List.nodup_cons]
        exact ⟨hnd.1, hnd.2⟩
      · rw [if_neg hc, List.map_cons, List.nodup_cons]
        exact ⟨hnd.1, hnd.2⟩
    · rw [if_neg hg]
      rw [List.map_cons, List.nodup_cons]
      refine ⟨?_, ih hnd.2⟩
      rw [addDbDup_keys_mem]
      rintro (hmem | hkey)
      · exact hnd.1 hmem
      · exact hg hkey

theorem addDbDup_inv (Q : Nat → String → Prop) (key : String) (rn : Nat)
    (hQ : Q rn key) :
    ∀ (G : List DupGroup), (∀ g ∈ G, ∀ r ∈ g.rowNumbers, Q r g.key) →
      ∀ g ∈ addDbDup key rn G, ∀ r ∈ g.rowNumbers, Q r g.key := by
  intro G
  induction G with
  | nil =>
    intro _ g hg r hr
    simp only [addDbDup, List.mem_singleton] at hg
    subst hg
    simp only [List.mem_singleton] at hr
    subst hr
    exact hQ
  | cons g0 t ih =>
    intro hinv g hg r hr
    unfold addDbDup at hg
    by_cases hk : g0.key = key
    · rw [if_pos hk] at hg
      by_cases hc : g0.rowNumbers.contains rn
      · rw [if_pos hc] at hg
        rcases List.mem_cons.mp hg with he | ht
        · subst he
          exact hinv g (List.mem_cons_self _ _) r hr
        · exact hinv g (List.mem_cons_of_mem _ ht) r hr
      · rw [if_neg hc] at hg
        rcases List.mem_cons.mp hg with he | ht
        · subst he
          dsimp only at hr ⊢
          rcases List.mem_append.mp hr with h1 | h2
          · exact hinv g0 (List.mem_cons_self _ _) r h1
          · have hrn : r = rn := by simpa using h2
            subst hrn
            exact hk ▸ hQ
        · exact hinv g (List.mem_cons_of_mem _ ht) r hr
    · rw [if_neg hk] at hg
      rcases List.mem_cons.mp hg with he | ht
      · subst he
        exact hinv g (List.mem_cons_self _ _) r hr
      · exact ih (fun g' hg' => hinv g' (List.mem_cons_of_mem _ hg')) g ht r hr

theorem addDbDup_mem2_mono (key : String) (rn : Nat) (k : String) (r1 r2 : Nat) :
    ∀ (G : List DupGroup),
      (∃ g ∈ G, g.key = k ∧ r1 ∈ g.rowNumbers ∧ r2 ∈ g.rowNumbers) →
      ∃ g ∈ addDbDup key rn G, g.key = k ∧ r1 ∈ g.rowNumbers ∧ r2 ∈ g.rowNumbers := by
  intro G
  induction G with
  | nil =>
    rintro ⟨g, hg, _⟩
    exact absurd hg (List.not_mem_nil g)
  | cons g0 t ih =>
    rintro ⟨g, hg, hkey, hr1, hr2⟩
    unfold addDbDup
    by_cases hk : g0.key = key
    · rw [if_pos hk]
      by_cases hc : g0.rowNumbers.contains rn
      · rw [if_pos hc]
        exact ⟨g, hg, hkey, hr1, hr2⟩
      · rw [if_neg hc]
        rcases List.mem_cons.mp hg with he | ht
        · subst he
          exact ⟨⟨g.key, g.rowNumbers ++ [rn]⟩, List.mem_cons_self _ _, hkey,
            List.mem_append_left _ hr1, List.mem_append_left _ hr2⟩
        · exact ⟨g, List.mem_cons_of_mem _ ht, hkey, hr1, hr2⟩
    · rw [if_neg hk]
      rcases List.mem_cons.mp hg with he | ht
      · subst he
        exact ⟨g, List.mem_cons_self _ _, hkey, hr1, hr2⟩
      · obtain ⟨g', hg', hk', hr1', hr2'⟩ := ih ⟨g, ht, hkey, hr1, hr2⟩
        exact ⟨g', List.mem_cons_of_mem _ hg', hk', hr1', hr2'⟩

/-! ## Fold-level invariants of the grouping loops -/

theorem foldl_emailGroupStep_keys_nodup :
    ∀ (rows : List ValidRow) (acc : List DupGroup),
      (acc.map DupGroup.key).Nodup →
      ((rows.foldl emailGroupStep acc).map DupGroup.key).Nodup := by
  intro rows
  induction rows with
  | nil => intro acc h; exact h
  | cons vr t ih =>
    intro acc h
    rw [List.foldl_cons]
    apply ih
    unfold emailGroupStep
    cases hve : vr.data.email with
    | str e =>
      dsimp only
      by_cases he : e = ""
      · rw [if_pos he]; exact h
      · rw [if_neg he]; exact addToGroups_keys_nodup _ _ _ h
    | undef => exact h
    | nullv => exact h

theorem foldl_emailGroupStep_inv (Q : Nat → String → Prop) :
    ∀ (rows : List ValidRow) (acc : List DupGroup),
      (∀ vr ∈ rows, ∀ e : String, vr.data.email = .str e → e ≠ "" →
        Q vr.rowNumber (jsToLower e)) →
      (∀ g ∈ acc, ∀ r ∈ g.rowNumbers, Q r g.key) →
      ∀ g ∈ rows.foldl emailGroupStep acc, ∀ r ∈ g.rowNumbers, Q r g.key := by
  intro rows
  induction rows with
  | nil => intro acc _ hacc; exact hacc
  | cons vr t ih =>
    intro acc hQ hacc
    rw [List.foldl_cons]
    apply ih _ (fun v hv => hQ v (List.mem_cons_of_mem _ hv))
    unfold emailGroupStep
    cases hve : vr.data.email with
    | str e =>
      dsimp only
      by_cases he : e = ""
      · rw [if_pos he]; exact hacc
      · rw [if_neg he]
        exact addToGroups_inv Q _ _ (hQ vr (List.mem_cons_self _ _) e hve he) _ hacc
    | undef => exact hacc
    | nullv => exact hacc

theorem foldl_emailGroupStep_mem_mono (k : String) (r : Nat) :
    ∀ (rows : List ValidRow) (acc : List DupGroup),
      (∃ g ∈ acc, g.key = k ∧ r ∈ g.rowNumbers) →
      ∃ g ∈ rows.foldl emailGroupStep acc, g.key = k ∧ r ∈ g.rowNumbers := by
  intro rows
  induction rows with
  | nil => intro acc h; exact h
  | cons vr t ih =>
    intro acc h
    rw [List.foldl_cons]
    apply ih
    unfold emailGroupStep
    cases hve : vr.data.email with
    | str e =>
      dsimp only
      by_cases he : e = ""
      · rw [if_pos he]; exact h
      · rw [if_neg he]; exact addToGroups_mem_mono _ _ _ _ _ h
    | undef => exact h
    | nullv => exact h

theorem foldl_emailGroupStep_mem (e : String) :
    ∀ (rows : List ValidRow) (acc : List DupGroup) (vr : ValidRow),
      vr ∈ rows → vr.data.email = .str e → e ≠ "" →
      ∃ g ∈ rows.foldl emailGroupStep acc,
        g.key = jsToLower e ∧ vr.rowNumber ∈ g.rowNumbers := by
  intro rows
  induction rows with
  | nil => intro acc vr hv; exact absurd hv (List.not_mem_nil vr)
  | cons v0 t ih =>
    intro acc vr hv hve hne
    rw [List.foldl_cons]
    rcases List.mem_cons.mp hv with he | ht
    · subst he
      apply foldl_emailGroupStep_mem_mono
      unfold emailGroupStep
      rw [hve]
      dsimp only
      rw [if_neg hne]
      exact addToGroups_mem_self _ _ _
    · exact ih _ vr ht hve hne

theorem foldl_dbDupStep_keys_nodup (ee ep : List String) :
    ∀ (rows : List ValidRow) (acc : List DupGroup × List DupGroup),
      (acc.1.map DupGroup.key).Nodup →
      (((rows.foldl (dbDupStep ee ep) acc).1).map DupGroup.key).Nodup := by
  intro rows
  induction rows with
  | nil => intro acc h; exact h
  | cons vr t ih =>
    intro acc h
    rw [List.foldl_cons]
    apply ih
    show ((dbDupStep ee ep acc vr).1.map DupGroup.key).Nodup
    unfold dbDupStep
    dsimp only
    cases hve : vr.data.email with
    | str e =>
      dsimp only
      by_cases hc : e ≠ "" ∧ ee.contains (jsToLower e)
      · rw [if_pos hc]; exact addDbDup_keys_nodup _ _ _ h
      · rw [if_neg hc]; exact h
    | undef => exact h
    | nullv => exact h

theorem foldl_dbDupStep_inv (ee ep : List String) (Q : Nat → String → Prop) :
    ∀ (rows : List ValidRow) (acc : List DupGroup × List DupGroup),
      (∀ vr ∈ rows, ∀ e : String, vr.data.email = .str e → e ≠ "" →
        Q vr.rowNumber (jsToLower e)) →
      (∀ g ∈ acc.1, ∀ r ∈ g.rowNumbers, Q r g.key) →
      ∀ g ∈ (rows.foldl (dbDupStep ee ep) acc).1, ∀ r ∈ g.rowNumbers, Q r g.key := by
  intro rows
  induction rows with
  | nil => intro acc _ hacc; exact hacc
  | cons vr t ih =>
    intro acc hQ hacc
    rw [List.foldl_cons]
    apply ih _ (fun v hv => hQ v (List.mem_cons_of_mem _ hv))
    show ∀ g ∈ (dbDupStep ee ep acc vr).1, ∀ r ∈ g.rowNumbers, Q r g.key
    unfold dbDupStep
    dsimp only
    cases hve : vr.data.email with
    | str e =>
      dsimp only
      by_cases hc : e ≠ "" ∧ ee.contains (jsToLower e)
      · rw [if_pos hc]
        exact addDbDup_inv Q _ _ (hQ vr (List.mem_cons_self _ _) e hve hc.1) _ hacc
      · rw [if_neg hc]; exact hacc
    | undef => exact hacc
    | nullv => exact hacc

theorem foldl_dbDupStep_mem2 (ee ep : List String) (k : String) (r1 r2 : Nat) :
    ∀ (rows : List ValidRow) (acc : List DupGroup × List DupGroup),
      (∃ g ∈ acc.1, g.key = k ∧ r1 ∈ g.rowNumbers ∧ r2 ∈ g.rowNumbers) →
      ∃ g ∈ (rows.foldl (dbDupStep ee ep) acc).1,
        g.key = k ∧ r1 ∈ g.rowNumbers ∧ r2 ∈ g.rowNumbers := by
  intro rows
  induction rows with
  | nil => intro acc h; exact h
  | cons vr t ih =>
    intro acc h
    rw [List.foldl_cons]
    apply ih
    show ∃ g ∈ (dbDupStep ee ep acc vr).1, g.key = k ∧ r1 ∈ g.rowNumbers ∧ r2 ∈ g.rowNumbers
    unfold dbDupStep
    dsimp only
    cases hve : vr.data.email with
    | str e =>
      dsimp only
      by_cases hc : e ≠ "" ∧ ee.contains (jsToLower e)
      · rw [if_pos hc]; exact addDbDup_mem2_mono _ _ _ _ _ _ h
      · rw [if_neg hc]; exact h
    | undef => exact h
    | nullv => exact h

/-! ## Structure of the preview classification -/

theorem classifyRowsAux_rowNumbers_sublist :
    ∀ (rows : List (List (String × String))) (k : Nat),
      ((classifyRowsAux k rows).1.map ValidRow.rowNumber).Sublist
        (List.range' k rows.length) := by
  intro rows
  induction rows with
  | nil => intro k; simp [classifyRowsAux]
  | cons r t ih =>
    intro k
    unfold classifyRowsAux
    rw [List.length_cons, List.range'_succ]
    by_cases hv : (rowValidationErrors (cleanPreviewRow r)).isEmpty
    · rw [if_pos hv]
      dsimp only
      rw [List.map_cons]
      exact (ih (k + 1)).cons₂ k
    · rw [if_neg hv]
      dsimp only
      exact (ih (k + 1)).cons k

theorem previewValid_nodup (content : String) :
    ((previewValid content).map ValidRow.rowNumber).Nodup :=
  (classifyRowsAux_rowNumbers_sublist (parseCsv content) 1).nodup
    (List.nodup_range' 1 (parseCsv content).length 1 (by omega))

theorem previewValid_functional (content : String) {r : Nat} {d d' : CsvRowData}
    (h1 : (⟨r, d⟩ : ValidRow) ∈ previewValid content)
    (h2 : (⟨r, d'⟩ : ValidRow) ∈ previewValid content) : d = d' := by
  have := List.inj_on_of_nodup_map (previewValid_nodup content) h1 h2 rfl
  injection this

theorem classifyRowsAux_data :
    ∀ (rows : List (List (String × String))) (k : Nat) (vr : ValidRow),
      vr ∈ (classifyRowsAux k rows).1 →
      ∃ raw ∈ rows, vr.data = cleanPreviewRow raw := by
  intro rows
  induction rows with
  | nil =>
    intro k vr hv
    simp [classifyRowsAux] at hv
  | cons r t ih =>
    intro k vr hv
    unfold classifyRowsAux at hv
    by_cases hval : (rowValidationErrors (cleanPreviewRow r)).isEmpty
    · rw [if_pos hval] at hv
      dsimp only at hv
      rcases List.mem_cons.mp hv with he | ht
      · subst he
        exact ⟨r, List.mem_cons_self _ _, rfl⟩
      · obtain ⟨raw, hraw, hd⟩ := ih (k + 1) vr ht
        exact ⟨raw, List.mem_cons_of_mem _ hraw, hd⟩
    · rw [if_neg hval] at hv
      dsimp only at hv
      obtain ⟨raw, hraw, hd⟩ := ih (k + 1) vr hv
      exact ⟨raw, List.mem_cons_of_mem _ hraw, hd⟩

theorem cleanPreviewRow_email_ne (raw : List (String × String)) (s : String)
    (h : (cleanPreviewRow raw).email = .str s) : s ≠ "" := by
  unfold cleanPreviewRow at h
  dsimp only at h
  cases hl : lookupStr raw "email" with
  | none => rw [hl] at h; simp at h
  | some v =>
    rw [hl] at h
    dsimp only at h
    by_cases hv : jsTrim v = ""
    · rw [if_pos hv] at h; simp at h
    · rw [if_neg hv] at h
      injection h with h
      subst h
      exact hv

theorem previewValid_email_ne (content : String) (vr : ValidRow) (s : String)
    (hv : vr ∈ previewValid content) (h : vr.data.email = .str s) : s ≠ "" := by
  obtain ⟨raw, _, hd⟩ := classifyRowsAux_data (parseCsv content) 1 vr hv
  rw [hd] at h
  exact cleanPreviewRow_email_ne raw s h

/-! ## Invariants through checkDatabaseDuplicates -/

theorem checkDb_keys_nodup (validRows : List ValidRow) (store : List Contact)
    (dupE dupP : List DupGroup) (h : (dupE.map DupGroup.key).Nodup) :
    (((checkDatabaseDuplicates validRows store dupE dupP).1).map DupGroup.key).Nodup := by
  unfold checkDatabaseDuplicates
  split
  · exact h
  · exact foldl_dbDupStep_keys_nodup _ _ _ _ h

theorem checkDb_inv (validRows : List ValidRow) (store : List Contact)
    (dupE dupP : List DupGroup) (Q : Nat → String → Prop)
    (hQ : ∀ vr ∈ validRows, ∀ e : String, vr.data.email = .str e → e ≠ "" →
      Q vr.rowNumber (jsToLower e))
    (h : ∀ g ∈ dupE, ∀ r ∈ g.rowNumbers, Q r g.key) :
    ∀ g ∈ (checkDatabaseDuplicates validRows store dupE dupP).1,
      ∀ r ∈ g.rowNumbers, Q r g.key := by
  unfold checkDatabaseDuplicates
  split
  · exact h
  · exact foldl_dbDupStep_inv _ _ Q _ _ hQ h

theorem checkDb_mem2 (validRows : List ValidRow) (store : List Contact)
    (dupE dupP : List DupGroup) (k : String) (r1 r2 : Nat)
    (h : ∃ g ∈ dupE, g.key = k ∧ r1 ∈ g.rowNumbers ∧ r2 ∈ g.rowNumbers) :
    ∃ g ∈ (checkDatabaseDuplicates validRows store dupE dupP).1,
      g.key = k ∧ r1 ∈ g.rowNumbers ∧ r2 ∈ g.rowNumbers := by
  unfold checkDatabaseDuplicates
  split
  · exact h
  · exact foldl_dbDupStep_mem2 _ _ _ _ _ _ _ h

theorem preview_dup_email_group (content : String) (store : List Contact)
    (i j : Nat) (d_i d_j : CsvRowData) (e_i e_j : String)
    (hvi : (⟨i, d_i⟩ : ValidRow) ∈ previewValid content)
    (hvj : (⟨j, d_j⟩ : ValidRow) ∈ previewValid content)
    (hne : i ≠ j)
    (hei : d_i.email = .str e_i) (hej : d_j.email = .str e_j)
    (hlow : jsToLower e_i = jsToLower e_j) :
    ∃ g ∈ (previewDups content store).1,
      i ∈ g.rowNumbers ∧ j ∈ g.rowNumbers ∧
      ∀ g' ∈ (previewDups content store).1,
        (i ∈ g'.rowNumbers ∨ j ∈ g'.rowNumbers) → g' = g := by
  have hne_i : e_i ≠ "" := previewValid_email_ne content ⟨i, d_i⟩ e_i hvi hei
  have hne_j : e_j ≠ "" := previewValid_email_ne content ⟨j, d_j⟩ e_j hvj hej
  obtain ⟨gi, hgi, hki, hii⟩ := foldl_emailGroupStep_mem e_i (previewValid content) []
    ⟨i, d_i⟩ hvi hei hne_i
  obtain ⟨gj, hgj, hkj, hjj⟩ := foldl_emailGroupStep_mem e_j (previewValid content) []
    ⟨j, d_j⟩ hvj hej hne_j
  have hFnd : (((previewValid content).foldl emailGroupStep []).map DupGroup.key).Nodup :=
    foldl_emailGroupStep_keys_nodup (previewValid content) [] (by simp)
  have hgij : gi = gj :=
    List.inj_on_of_nodup_map hFnd hgi hgj (by rw [hki, hkj, hlow])
  subst hgij
  have hlen : 1 < gi.rowNumbers.length := one_lt_length_of_two_mem hii hjj hne
  have hmemF : gi ∈ findDuplicateEmails (previewValid content) := by
    unfold findDuplicateEmails
    exact List.mem_filter.mpr ⟨hgi, by simpa using hlen⟩
  obtain ⟨g, hgmem, hgkey, hgi2, hgj2⟩ :=
    checkDb_mem2 (previewValid content) store (findDuplicateEmails (previewValid content))
      (findDuplicatePhones (previewValid content)) (jsToLower e_i) i j
      ⟨gi, hmemF, hki, hii, hjj⟩
  have hQ : ∀ vr ∈ previewValid content, ∀ e : String, vr.data.email = .str e → e ≠ "" →
      (∃ d, (⟨vr.rowNumber, d⟩ : ValidRow) ∈ previewValid content ∧
        ∃ s, d.email = .str s ∧ jsToLower s = jsToLower e) := by
    intro vr hv e hve _
    exact ⟨vr.data, hv, e, hve, rfl⟩
  have hinvF := foldl_emailGroupStep_inv
    (fun r k => ∃ d, (⟨r, d⟩ : ValidRow) ∈ previewValid content ∧
      ∃ s, d.email = .str s ∧ jsToLower s = k)
    (previewValid content) [] hQ (by simp)
  have hinvFD : ∀ g' ∈ findDuplicateEmails (previewValid content), ∀ r ∈ g'.rowNumbers,
      ∃ d, (⟨r, d⟩ : ValidRow) ∈ previewValid content ∧
        ∃ s, d.email = .str s ∧ jsToLower s = g'.key :=
    fun g' hg' => hinvF g' (List.mem_of_mem_filter hg')
  have hinvFinal := checkDb_inv (previewValid content) store
    (findDuplicateEmails (previewValid content)) (findDuplicatePhones (previewValid content))
    (fun r k => ∃ d, (⟨r, d⟩ : ValidRow) ∈ previewValid content ∧
      ∃ s, d.email = .str s ∧ jsToLower s = k) hQ hinvFD
  have hndF : ((findDuplicateEmails (previewValid content)).map DupGroup.key).Nodup := by
    unfold findDuplicateEmails
    exact List.Nodup.sublist ((List.filter_sublist _).map _) hFnd
  have hndFinal := checkDb_keys_nodup (previewValid content) store
    (findDuplicateEmails (previewValid content)) (findDuplicatePhones (previewValid content))
    hndF
  refine ⟨g, hgmem, hgi2, hgj2, ?_⟩
  intro g' hg' hmem'
  have hkey' : g'.key = jsToLower e_i := by
    rcases hmem' with hi' | hj'
    · obtain ⟨d', hd', s', hs', hlow'⟩ := hinvFinal g' hg' i hi'
      have hdd : d' = d_i := previewValid_functional content hd' hvi
      rw [hdd, hei] at hs'
      injection hs' with hs'
      rw [← hlow', ← hs']
    · obtain ⟨d', hd', s', hs', hlow'⟩ := hinvFinal g' hg' j hj'
      have hdd : d' = d_j := previewValid_functional content hd' hvj
      rw [hdd, hej] at hs'
      injection hs' with hs'
      rw [← hlow', ← hs', ← hlow]
  exact List.inj_on_of_nodup_map hndFinal hg' hgmem (by rw [hkey', hgkey])

/-- C6 counterexample: two valid rows whose emails agree only
case-insensitively ('A@b.com' / 'a@b.com').  The preview groups them into one
duplicateEmails group, but the ingestion run's duplicate check compares email
strings exactly, so it inserts both contacts and logs both rows as successes —
the ingestion half of the claim fails for merely case-insensitive equality. -/
theorem c6_counterexample :
    ((previewImport csvCaseDup []).duplicateEmails.map
        (fun g => (g.key, g.rowNumbers)) = [("a@b.com", [1, 2])]) ∧
    (startImport csvCaseDup "f.csv" [] noFault 1 0).map
      (fun r => (r.logs.map (fun en => (en.row_number, en.status)), r.contacts.length)) =
      .ok ([(1, .success), (2, .success)], 2) := by
  decide

/-- C6 (amended): for a pair of distinct valid rows whose emails are equal
under case-insensitive comparison, previewImport reports exactly one
duplicateEmails group containing both row numbers (regardless of the store) —
unconditionally.  The ingestion half holds under the stronger, exact-match
condition its code implements: when the two rows' processed emails are
exactly equal, the later row passes validation, and the earlier row was
actually inserted (it has a success log entry), startImport's run fails the
later row with a 'Duplicate email: v' error log entry.  (As claimed —
case-insensitive equality sufficing for ingestion, and the first carrier
always being inserted — the ingestion half fails; see the counterexample.) -/
theorem c6_dup_detection (content filename : String) (store pre : List Contact)
    (fault : Nat → Option String) (bid now : Nat) (res : ImportResult) (i j : Nat)
    (d_i d_j : CsvRowData) (e_i e_j v : String)
    (hvi : (⟨i, d_i⟩ : ValidRow) ∈ previewValid content)
    (hvj : (⟨j, d_j⟩ : ValidRow) ∈ previewValid content)
    (hneij : i ≠ j)
    (hei : d_i.email = .str e_i) (hej : d_j.email = .str e_j)
    (hlow : jsToLower e_i = jsToLower e_j) :
    (∃ g ∈ (previewImport content store).duplicateEmails,
      i ∈ g.rowNumbers ∧ j ∈ g.rowNumbers ∧
      ∀ g' ∈ (previewImport content store).duplicateEmails,
        (i ∈ g'.rowNumbers ∨ j ∈ g'.rowNumbers) → g' = g) ∧
    (i < j → 1 ≤ i → j ≤ (dataRowsOf content).length →
      startImport content filename pre fault bid now = .ok res →
      fault j = none →
      (∃ en ∈ res.logs, en.row_number = i ∧ en.status = .success) →
      (rowValidationErrors (processedOf (headerOf content)
        ((dataRowsOf content).getD (j - 1) ""))).isEmpty = true →
      (processedOf (headerOf content) ((dataRowsOf content).getD (i - 1) "")).email = .str v →
      (processedOf (headerOf content) ((dataRowsOf content).getD (j - 1) "")).email = .str v →
      (⟨bid, j, .error, some ("Duplicate email: " ++ v),
        jsonRecord (parseStartRow (headerOf content) ((dataRowsOf content).getD (j - 1) ""))⟩ :
          LogEntry) ∈ res.logs) := by
  constructor
  · have hpc : ¬ (parseCsv content).length = 0 := by
      intro h0
      have hnil : parseCsv content = [] := List.length_eq_zero.mp h0
      rw [previewValid, hnil] at hvi
      simp [classifyRowsAux] at hvi
    unfold previewImport
    rw [if_neg hpc]
    dsimp only
    exact preview_dup_email_group content store i j d_i d_j e_i e_j hvi hvj hneij hei hej hlow
  · intro hij hi1 hjlen hrun hfj hsucc hvalj hexi hexj
    have hres := startImport_ok hrun
    subst hres
    dsimp only at hsucc ⊢
    obtain ⟨hmem, _, himp⟩ := run_second_dup content pre fault bid i j v hij hi1 hjlen
      hfj hsucc hvalj (Or.inl ⟨hexi, hexj⟩)
    obtain ⟨hfld, hval⟩ := himp ⟨hexi, hexj⟩
    rw [hfld, hval] at hmem
    rw [show ("Duplicate email: " : String) = "Duplicate " ++ "email" ++ ": " from rfl]
    exact hmem

/-- Witness for C6: the preview and ingestion halves at a two-row file with
exactly equal emails, and the preview half again at the case-variant pair
(`A@b.com` / `a@b.com`), each against an empty store. -/
theorem c6_dup_detection_witness :
    (∃ g ∈ (previewImport csvExactDup []).duplicateEmails,
      1 ∈ g.rowNumbers ∧ 2 ∈ g.rowNumbers ∧
      ∀ g' ∈ (previewImport csvExactDup []).duplicateEmails,
        (1 ∈ g'.rowNumbers ∨ 2 ∈ g'.rowNumbers) → g' = g) ∧
    (⟨1, 2, .error, some ("Duplicate email: " ++ "a@b.com"),
      jsonRecord (parseStartRow (headerOf csvExactDup) ((dataRowsOf csvExactDup).getD 1 ""))⟩ :
        LogEntry) ∈ (mkImportResult csvExactDup "f.csv" [] noFault 1 0).logs ∧
    (∃ g ∈ (previewImport csvCaseDup []).duplicateEmails,
      1 ∈ g.rowNumbers ∧ 2 ∈ g.rowNumbers ∧
      ∀ g' ∈ (previewImport csvCaseDup []).duplicateEmails,
        (1 ∈ g'.rowNumbers ∨ 2 ∈ g'.rowNumbers) → g' = g) :=
  ⟨(c6_dup_detection csvExactDup "f.csv" [] [] noFault 1 0
      (mkImportResult csvExactDup "f.csv" [] noFault 1 0) 1 2
      ⟨"Juan", "Perez", .str "a@b.com", .nullv⟩ ⟨"Maria", "Lopez", .str "a@b.com", .nullv⟩
      "a@b.com" "a@b.com" "a@b.com"
      (by decide) (by decide) (by decide) (by decide) (by decide) (by decide)).1,
   (c6_dup_detection csvExactDup "f.csv" [] [] noFault 1 0
      (mkImportResult csvExactDup "f.csv" [] noFault 1 0) 1 2
      ⟨"Juan", "Perez", .str "a@b.com", .nullv⟩ ⟨"Maria", "Lopez", .str "a@b.com", .nullv⟩
      "a@b.com" "a@b.com" "a@b.com"
      (by decide) (by decide) (by decide) (by decide) (by decide) (by decide)).2
     (by decide) (by decide) (by decide) (by decide) (by decide) (by decide)
     (by decide) (by decide) (by decide),
   (c6_dup_detection csvCaseDup "f.csv" [] [] noFault 1 0
      (mkImportResult csvCaseDup "f.csv" [] noFault 1 0) 1 2
      ⟨"Juan", "Perez", .str "A@b.com", .nullv⟩ ⟨"Maria", "Lopez", .str "a@b.com", .nullv⟩
      "A@b.com" "a@b.com" "a@b.com"
      (by decide) (by decide) (by decide) (by decide) (by decide) (by decide)).1⟩

end CrmImport
